import Mathlib

/-!
Verification of the GLSL emitter in `libs/astrict/src/ToGlsl.cpp` and of the
fixed-capacity container in `filament/backend/src/vulkan/utils/CappedArray.h`.

The C++ emitter is a recursive tree walk over an ID-indexed IR (the
`PackFromGlsl`).  Every dump routine is embedded as a Lean function that
returns `Except EmitErr String`: the emitted text on success, `EmitErr.fault`
where the C++ raises an `ASSERT_PRECONDITION` / `PANIC_PRECONDITION` failure
or an out-of-range map access, and `EmitErr.noFuel` when the explicit fuel
(needed because the recursion goes through the ID tables, which may in
principle be cyclic) runs out.  Fuel is consumed exactly at the two table
indirections: `dumpRValue` (on entering an evaluable rvalue) and `dumpBlock`
(on entering a statement block); all other calls pass fuel unchanged, so a
fuel larger than the nesting depth of the IR never runs out.
-/

namespace Astrict

/-- Opaque handle for a type definition (CommonTypes.h, modelled per spec
section 3: all identifiers are opaque handles, 0 is the reserved sentinel). -/
structure TypeId where
  id : Nat
deriving DecidableEq

/-- Opaque handle for a function name. -/
structure FunctionId where
  id : Nat
deriving DecidableEq

/-- Opaque handle for an rvalue. -/
structure RValueId where
  id : Nat
deriving DecidableEq

/-- Opaque handle for a global symbol. -/
structure GlobalSymbolId where
  id : Nat
deriving DecidableEq

/-- Opaque handle for a local symbol. -/
structure LocalSymbolId where
  id : Nat
deriving DecidableEq

/-- Opaque handle for a statement block. -/
structure StatementBlockId where
  id : Nat
deriving DecidableEq

/-- Type record: name, optional precision (empty string means absent, as the
C++ checks `type.precision.empty()`), and array dimensions in declared
order. -/
structure GlslType where
  name : String
  precision : String
  arraySizes : List Nat
deriving DecidableEq

/-- Global symbol record; `dumpGlobalSymbol` only reads its name. -/
structure GlobalSymbol where
  name : String
deriving DecidableEq

/-- Local symbol record: declared type and name. -/
structure LocalSymbol where
  type : TypeId
  name : String
deriving DecidableEq

/-- One entry of a function parameter list: type handle and the local-symbol
handle standing for the parameter name. -/
structure Parameter where
  type : TypeId
  name : LocalSymbolId
deriving DecidableEq

/-- Value reference: tagged union over rvalue, global-symbol and local-symbol
handles (the C++ `ValueId` variant). -/
inductive ValueId where
  | rvalue (r : RValueId)
  | globalSymbol (g : GlobalSymbolId)
  | localSymbol (l : LocalSymbolId)
deriving DecidableEq

/-- The operators of `RValueOperator` that `dumpRValueOperator` dispatches on.
`IndexStruct` and `VectorSwizzle` appear in the C++ switch only as commented
out cases and therefore fall to the `default:` arm, as does
`ConstructStruct`. -/
inductive RValueOperator where
  | Negative
  | LogicalNot
  | BitwiseNot
  | PostIncrement
  | PostDecrement
  | PreIncrement
  | PreDecrement
  | ArrayLength
  | Add
  | Sub
  | Mul
  | Div
  | Mod
  | RightShift
  | LeftShift
  | And
  | InclusiveOr
  | ExclusiveOr
  | Equal
  | NotEqual
  | LessThan
  | GreaterThan
  | LessThanEqual
  | GreaterThanEqual
  | Comma
  | LogicalOr
  | LogicalXor
  | LogicalAnd
  | Index
  | Assign
  | AddAssign
  | SubAssign
  | MulAssign
  | DivAssign
  | ModAssign
  | AndAssign
  | InclusiveOrAssign
  | ExclusiveOrAssign
  | LeftShiftAssign
  | RightShiftAssign
  | Ternary
  | ConstructStruct
  | IndexStruct
  | VectorSwizzle
deriving DecidableEq

/-- Debug name of an operator.  Modelled from the spec: the helper
`rValueOperatorToString` lives in DebugCommon.cpp, which is not part of the
excerpt; per the spec (section 4.1) the fallback emission prints the
symbolic name of the operator, so the enumerator name is used. -/
def rValueOperatorToString : RValueOperator → String
  | .Negative => "Negative"
  | .LogicalNot => "LogicalNot"
  | .BitwiseNot => "BitwiseNot"
  | .PostIncrement => "PostIncrement"
  | .PostDecrement => "PostDecrement"
  | .PreIncrement => "PreIncrement"
  | .PreDecrement => "PreDecrement"
  | .ArrayLength => "ArrayLength"
  | .Add => "Add"
  | .Sub => "Sub"
  | .Mul => "Mul"
  | .Div => "Div"
  | .Mod => "Mod"
  | .RightShift => "RightShift"
  | .LeftShift => "LeftShift"
  | .And => "And"
  | .InclusiveOr => "InclusiveOr"
  | .ExclusiveOr => "ExclusiveOr"
  | .Equal => "Equal"
  | .NotEqual => "NotEqual"
  | .LessThan => "LessThan"
  | .GreaterThan => "GreaterThan"
  | .LessThanEqual => "LessThanEqual"
  | .GreaterThanEqual => "GreaterThanEqual"
  | .Comma => "Comma"
  | .LogicalOr => "LogicalOr"
  | .LogicalXor => "LogicalXor"
  | .LogicalAnd => "LogicalAnd"
  | .Index => "Index"
  | .Assign => "Assign"
  | .AddAssign => "AddAssign"
  | .SubAssign => "SubAssign"
  | .MulAssign => "MulAssign"
  | .DivAssign => "DivAssign"
  | .ModAssign => "ModAssign"
  | .AndAssign => "AndAssign"
  | .InclusiveOrAssign => "InclusiveOrAssign"
  | .ExclusiveOrAssign => "ExclusiveOrAssign"
  | .LeftShiftAssign => "LeftShiftAssign"
  | .RightShiftAssign => "RightShiftAssign"
  | .Ternary => "Ternary"
  | .ConstructStruct => "ConstructStruct"
  | .IndexStruct => "IndexStruct"
  | .VectorSwizzle => "VectorSwizzle"

/-- An evaluable rvalue: operator-or-call applied to an argument list. -/
structure EvaluableRValue where
  op : RValueOperator ⊕ FunctionId
  args : List ValueId
deriving DecidableEq

/-- RValue: tagged union of an evaluable node and an opaque literal (the
emitter never inspects the literal payload, see ToGlsl.cpp line 297). -/
inductive RValue where
  | evaluable (ev : EvaluableRValue)
  | literal
deriving DecidableEq

/-- Branch operators of `BranchStatement` (ToGlsl.cpp lines 383 to 413). -/
inductive BranchOperator where
  | Discard
  | TerminateInvocation
  | Demote
  | TerminateRayEXT
  | IgnoreIntersectionEXT
  | Return
  | Break
  | Continue
  | Case
  | Default
deriving DecidableEq

/-- If statement: condition, then block, optional else block. -/
structure IfStatement where
  condition : ValueId
  thenBlock : StatementBlockId
  elseBlock : Option StatementBlockId
deriving DecidableEq

/-- Switch statement: condition and flat body block. -/
structure SwitchStatement where
  condition : ValueId
  body : StatementBlockId
deriving DecidableEq

/-- Branch statement: branch operator plus optional operand value. -/
structure BranchStatement where
  op : BranchOperator
  operand : Option ValueId
deriving DecidableEq

/-- Loop statement: pre- or post-tested, optional terminal rvalue, condition
and body block. -/
structure LoopStatement where
  testFirst : Bool
  terminal : Option RValueId
  condition : ValueId
  body : StatementBlockId
deriving DecidableEq

/-- Statement: the tagged union `dumpBlock` dispatches on. -/
inductive Statement where
  | rvalue (r : RValueId)
  | ifStmt (s : IfStatement)
  | switchStmt (s : SwitchStatement)
  | branch (s : BranchStatement)
  | loop (s : LoopStatement)
deriving DecidableEq

/-- Function definition record (CommonTypes.h, modelled per spec section 3).
`localSymbols` is an insertion-ordered mapping, embedded as an association
list. -/
structure FunctionDefinition where
  returnType : TypeId
  name : FunctionId
  parameters : List Parameter
  localSymbols : List (LocalSymbolId × LocalSymbol)
  body : StatementBlockId
deriving DecidableEq

/-- The IR store.  Every mapping table is embedded as a function into
`Option`; `none` is an absent key (a lookup of it faults, matching the C++
asserts and `at` calls). -/
structure PackFromGlsl where
  functionNames : FunctionId → Option String
  types : TypeId → Option GlslType
  rValues : RValueId → Option RValue
  globalSymbols : GlobalSymbolId → Option GlobalSymbol
  statementBlocks : StatementBlockId → Option (List Statement)
  functionDefinitions : FunctionId → Option FunctionDefinition
  functionPrototypes : List FunctionId
  functionDefinitionOrder : List FunctionId

/-- Emission failure: `fault` for an IR consistency fault (a failed assert,
panic or map access), `noFuel` when the modelling fuel runs out. -/
inductive EmitErr where
  | fault
  | noFuel
deriving DecidableEq

/-- Result of one emission routine: the appended text or a failure. -/
abbrev EmitM := Except EmitErr String

/-- The constant `kIndentAmount` (ToGlsl.cpp line 28). -/
def kIndentAmount : String := "  "

/-- The constant `kSpace` (ToGlsl.cpp line 29). -/
def kSpace : String := " "

/-- Prefix of a name up to but not including its first opening parenthesis;
this is the `substr(0, name.find(char))` computation of `dumpFunctionName`. -/
def nameBeforeParen (name : String) : String :=
  ⟨name.data.takeWhile (fun c => c ≠ '(')⟩

/-- `dumpFunctionName` (ToGlsl.cpp lines 31 to 36): looks the name up and
prints it truncated at the first opening parenthesis.  A missing map entry is
an out-of-range `at` access, hence a fault. -/
def dumpFunctionName (pack : PackFromGlsl) (functionId : FunctionId) : EmitM :=
  match pack.functionNames functionId with
  | none => .error .fault
  | some name => .ok (nameBeforeParen name)

/-- `dumpType` (ToGlsl.cpp lines 38 to 49): optional precision prefix, type
name, then one bracketed entry per array dimension. -/
def dumpType (pack : PackFromGlsl) (typeId : TypeId) : EmitM :=
  match pack.types typeId with
  | none => .error .fault
  | some type =>
      .ok ((if type.precision ≠ "" then type.precision ++ " " else "")
        ++ type.name
        ++ String.join (type.arraySizes.map (fun n => "[" ++ toString n ++ "]")))

/-- `dumpGlobalSymbol` (ToGlsl.cpp lines 303 to 314): sentinel handle prints
the placeholder, otherwise the symbol name is looked up and printed. -/
def dumpGlobalSymbol (pack : PackFromGlsl) (globalSymbolId : GlobalSymbolId) : EmitM :=
  if globalSymbolId.id = 0 then
    .ok "INVALID_GLOBAL_SYMBOL"
  else
    match pack.globalSymbols globalSymbolId with
    | none => .error .fault
    | some globalSymbol => .ok globalSymbol.name

/-- `dumpLocalSymbol` (ToGlsl.cpp lines 316 to 332): sentinel handle prints
the placeholder; otherwise the symbol is looked up in the owning function and
printed, optionally preceded by its type (`withType` is the C++ `dumpType`
parameter, renamed to avoid the clash with the function of that name). -/
def dumpLocalSymbol (pack : PackFromGlsl) (function : FunctionDefinition)
    (localSymbolId : LocalSymbolId) (withType : Bool) : EmitM :=
  if localSymbolId.id = 0 then
    .ok "INVALID_LOCAL_SYMBOL"
  else
    match function.localSymbols.lookup localSymbolId with
    | none => .error .fault
    | some localSymbol =>
        if withType then
          match dumpType pack localSymbol.type with
          | .error e => .error e
          | .ok t => .ok (t ++ " " ++ localSymbol.name)
        else
          .ok localSymbol.name

mutual

/-- `dumpValue` (ToGlsl.cpp lines 334 to 346): dispatch on the value-reference
variant.  The C++ `else` panic branch is unreachable because the variant is
closed; the Lean sum is closed as well. -/
def dumpValue (pack : PackFromGlsl) (function : FunctionDefinition)
    (fuel : Nat) (valueId : ValueId) : EmitM :=
  match valueId with
  | .rvalue rValueId => dumpRValue pack function fuel rValueId
  | .globalSymbol globalSymbolId => dumpGlobalSymbol pack globalSymbolId
  | .localSymbol localSymbolId => dumpLocalSymbol pack function localSymbolId false
termination_by (fuel, 1, 0)

/-- `dumpRValue` (ToGlsl.cpp lines 278 to 301): the sentinel handle prints
`INVALID_RVALUE` before any lookup; a missing table entry faults; an
evaluable rvalue dispatches on operator versus call (consuming one unit of
fuel, as this is the table indirection that makes the recursion unbounded);
a literal prints the placeholder `LITERAL`. -/
def dumpRValue (pack : PackFromGlsl) (function : FunctionDefinition)
    (fuel : Nat) (rValueId : RValueId) : EmitM :=
  if rValueId.id = 0 then
    .ok "INVALID_RVALUE"
  else
    match pack.rValues rValueId with
    | none => .error .fault
    | some rValue =>
        match rValue with
        | .evaluable evaluable =>
            match fuel with
            | 0 => .error .noFuel
            | f + 1 =>
                match evaluable.op with
                | .inl op => dumpRValueOperator pack function f op evaluable.args
                | .inr functionId =>
                    dumpRValueFunctionCall pack function f functionId evaluable.args
        | .literal => .ok "LITERAL"
termination_by (fuel, 0, 0)

/-- Shared shape of the eight unary arms of `dumpRValueOperator`
(ToGlsl.cpp lines 75 to 125): each asserts exactly one argument and emits it
between a fixed prefix and suffix (for example `-(` and `)` for `Negative`,
empty and `++` for `PostIncrement`). -/
def dumpUnaryRValueOperator (pack : PackFromGlsl) (function : FunctionDefinition)
    (fuel : Nat) (args : List ValueId) (before after : String) : EmitM :=
  match args with
  | [a] =>
      match dumpValue pack function fuel a with
      | .error e => .error e
      | .ok s => .ok (before ++ s ++ after)
  | _ => .error .fault
termination_by (fuel, 2, 0)

/-- `dumpBinaryRValueOperator` (ToGlsl.cpp lines 55 to 67): asserts exactly
two arguments, then prints `(lhs op rhs)` with one space around the operator
symbol. -/
def dumpBinaryRValueOperator (pack : PackFromGlsl) (function : FunctionDefinition)
    (fuel : Nat) (op : RValueOperator) (args : List ValueId)
    (opString : String) : EmitM :=
  match args with
  | [a, b] =>
      match dumpValue pack function fuel a with
      | .error e => .error e
      | .ok la =>
          match dumpValue pack function fuel b with
          | .error e => .error e
          | .ok lb => .ok ("(" ++ la ++ kSpace ++ opString ++ kSpace ++ lb ++ ")")
  | _ => .error .fault
termination_by (fuel, 2, 0)

/-- Space-prefixed argument dump used by the fallback arm of
`dumpRValueOperator` (ToGlsl.cpp lines 250 to 255): every argument is
preceded by one space. -/
def dumpArgListSpace (pack : PackFromGlsl) (function : FunctionDefinition)
    (fuel : Nat) (args : List ValueId) : EmitM :=
  match args with
  | [] => .ok ""
  | a :: rest =>
      match dumpValue pack function fuel a with
      | .error e => .error e
      | .ok s =>
          match dumpArgListSpace pack function fuel rest with
          | .error e => .error e
          | .ok r => .ok (kSpace ++ s ++ r)
termination_by (fuel, 2, args.length)

/-- Comma-separated argument dump used by `dumpRValueFunctionCall`
(ToGlsl.cpp lines 266 to 274): the first argument is bare, every later one
is preceded by a comma and a space. -/
def dumpArgListComma (pack : PackFromGlsl) (function : FunctionDefinition)
    (fuel : Nat) (args : List ValueId) (firstArg : Bool) : EmitM :=
  match args with
  | [] => .ok ""
  | a :: rest =>
      match dumpValue pack function fuel a with
      | .error e => .error e
      | .ok s =>
          match dumpArgListComma pack function fuel rest false with
          | .error e => .error e
          | .ok r => .ok ((if firstArg then "" else "," ++ kSpace) ++ s ++ r)
termination_by (fuel, 2, args.length)

/-- `dumpRValueOperator` (ToGlsl.cpp lines 69 to 258): the big operator
switch.  Fixed-arity operators fault when the argument count is wrong
(the `ASSERT_PRECONDITION` calls); the final arm is the C++ `default:`
fallback reached by `ConstructStruct`, `IndexStruct` and `VectorSwizzle`. -/
def dumpRValueOperator (pack : PackFromGlsl) (function : FunctionDefinition)
    (fuel : Nat) (op : RValueOperator) (args : List ValueId) : EmitM :=
  match op with
  | .Negative => dumpUnaryRValueOperator pack function fuel args "-(" ")"
  | .LogicalNot => dumpUnaryRValueOperator pack function fuel args "!(" ")"
  | .BitwiseNot => dumpUnaryRValueOperator pack function fuel args "~(" ")"
  | .PostIncrement => dumpUnaryRValueOperator pack function fuel args "" "++"
  | .PostDecrement => dumpUnaryRValueOperator pack function fuel args "" "--"
  | .PreIncrement => dumpUnaryRValueOperator pack function fuel args "++" ""
  | .PreDecrement => dumpUnaryRValueOperator pack function fuel args "--" ""
  | .ArrayLength => dumpUnaryRValueOperator pack function fuel args "" ".length"
  | .Add => dumpBinaryRValueOperator pack function fuel op args "+"
  | .Sub => dumpBinaryRValueOperator pack function fuel op args "-"
  | .Mul => dumpBinaryRValueOperator pack function fuel op args "*"
  | .Div => dumpBinaryRValueOperator pack function fuel op args "/"
  | .Mod => dumpBinaryRValueOperator pack function fuel op args "%"
  | .RightShift => dumpBinaryRValueOperator pack function fuel op args ">>"
  | .LeftShift => dumpBinaryRValueOperator pack function fuel op args "<<"
  | .And => dumpBinaryRValueOperator pack function fuel op args "&"
  | .InclusiveOr => dumpBinaryRValueOperator pack function fuel op args "|"
  | .ExclusiveOr => dumpBinaryRValueOperator pack function fuel op args "^"
  | .Equal => dumpBinaryRValueOperator pack function fuel op args "=="
  | .NotEqual => dumpBinaryRValueOperator pack function fuel op args "!="
  | .LessThan => dumpBinaryRValueOperator pack function fuel op args "<"
  | .GreaterThan => dumpBinaryRValueOperator pack function fuel op args ">"
  | .LessThanEqual => dumpBinaryRValueOperator pack function fuel op args "<="
  | .GreaterThanEqual => dumpBinaryRValueOperator pack function fuel op args ">="
  | .Comma => dumpBinaryRValueOperator pack function fuel op args ","
  | .LogicalOr => dumpBinaryRValueOperator pack function fuel op args "||"
  | .LogicalXor => dumpBinaryRValueOperator pack function fuel op args "^^"
  | .LogicalAnd => dumpBinaryRValueOperator pack function fuel op args "&&"
  | .Index =>
      match args with
      | [a, b] =>
          match dumpValue pack function fuel a with
          | .error e => .error e
          | .ok la =>
              match dumpValue pack function fuel b with
              | .error e => .error e
              | .ok lb => .ok (la ++ "[" ++ lb ++ "]")
      | _ => .error .fault
  | .Assign => dumpBinaryRValueOperator pack function fuel op args "="
  | .AddAssign => dumpBinaryRValueOperator pack function fuel op args "+="
  | .SubAssign => dumpBinaryRValueOperator pack function fuel op args "-="
  | .MulAssign => dumpBinaryRValueOperator pack function fuel op args "*="
  | .DivAssign => dumpBinaryRValueOperator pack function fuel op args "/="
  | .ModAssign => dumpBinaryRValueOperator pack function fuel op args "%="
  | .AndAssign => dumpBinaryRValueOperator pack function fuel op args "&="
  | .InclusiveOrAssign => dumpBinaryRValueOperator pack function fuel op args "|="
  | .ExclusiveOrAssign => dumpBinaryRValueOperator pack function fuel op args "^="
  | .LeftShiftAssign => dumpBinaryRValueOperator pack function fuel op args "<<="
  | .RightShiftAssign => dumpBinaryRValueOperator pack function fuel op args ">>="
  | .Ternary =>
      match args with
      | [a, b, c] =>
          match dumpValue pack function fuel a with
          | .error e => .error e
          | .ok sa =>
              match dumpValue pack function fuel b with
              | .error e => .error e
              | .ok sb =>
                  match dumpValue pack function fuel c with
                  | .error e => .error e
                  | .ok sc =>
                      .ok ("((" ++ sa ++ ")" ++ kSpace ++ "?" ++ kSpace ++ "("
                        ++ sb ++ ")" ++ kSpace ++ ":" ++ kSpace ++ "(" ++ sc ++ "))")
      | _ => .error .fault
  | _ =>
      match dumpArgListSpace pack function fuel args with
      | .error e => .error e
      | .ok s => .ok ("(" ++ rValueOperatorToString op ++ s ++ ")")
termination_by (fuel, 3, 0)

/-- `dumpRValueFunctionCall` (ToGlsl.cpp lines 260 to 276): function name,
then the comma-separated arguments in parentheses. -/
def dumpRValueFunctionCall (pack : PackFromGlsl) (function : FunctionDefinition)
    (fuel : Nat) (functionId : FunctionId) (args : List ValueId) : EmitM :=
  match dumpFunctionName pack functionId with
  | .error e => .error e
  | .ok nm =>
      match dumpArgListComma pack function fuel args true with
      | .error e => .error e
      | .ok argsStr => .ok (nm ++ "(" ++ argsStr ++ ")")
termination_by (fuel, 3, 0)

end

/-- The `indentMinusOne` string of `dumpBlock` (ToGlsl.cpp lines 353 to 356):
`depth - 1` copies of the indent unit (zero copies when `depth` is 0, as the
C++ loop bound `depth - 1` is then negative). -/
def indentMinusOneStr (depth : Nat) : String :=
  String.join (List.replicate (depth - 1) kIndentAmount)

/-- The `indent` string of `dumpBlock` (ToGlsl.cpp lines 357 to 360):
`indentMinusOne` plus one more unit when `depth` is positive. -/
def indentStr (depth : Nat) : String :=
  indentMinusOneStr depth ++ (if depth > 0 then kIndentAmount else "")

mutual

/-- `dumpBlock` (ToGlsl.cpp lines 348 to 453): asserts that the block handle
resolves, then emits each statement of the block in order.  One unit of fuel
is consumed here, as the block table indirection makes the recursion
unbounded. -/
def dumpBlock (pack : PackFromGlsl) (function : FunctionDefinition)
    (fuel : Nat) (blockId : StatementBlockId) (depth : Nat) : EmitM :=
  match pack.statementBlocks blockId with
  | none => .error .fault
  | some statements =>
      match fuel with
      | 0 => .error .noFuel
      | f + 1 => dumpStatements pack function f statements depth
termination_by (fuel, 0, 0)

/-- The statement iteration of `dumpBlock` (the `for` loop at ToGlsl.cpp
line 361): each statement contribution is appended in order. -/
def dumpStatements (pack : PackFromGlsl) (function : FunctionDefinition)
    (fuel : Nat) (statements : List Statement) (depth : Nat) : EmitM :=
  match statements with
  | [] => .ok ""
  | statement :: rest =>
      match dumpStatement pack function fuel statement depth with
      | .error e => .error e
      | .ok s =>
          match dumpStatements pack function fuel rest depth with
          | .error e => .error e
          | .ok r => .ok (s ++ r)
termination_by (fuel, 2, statements.length)

/-- The body of the statement loop of `dumpBlock` (ToGlsl.cpp lines 362 to
452): dispatch on the statement variant.  `indent` prefixes every statement
except `Case` and `Default` branch statements, which get `indentMinusOne`;
nested blocks are dumped at `depth + 1`. -/
def dumpStatement (pack : PackFromGlsl) (function : FunctionDefinition)
    (fuel : Nat) (statement : Statement) (depth : Nat) : EmitM :=
  let indentMinusOne := indentMinusOneStr depth
  let indent := indentStr depth
  match statement with
  | .rvalue rValueId =>
      match dumpRValue pack function fuel rValueId with
      | .error e => .error e
      | .ok s => .ok (indent ++ s ++ ";\n")
  | .ifStmt ifStatement =>
      match dumpValue pack function fuel ifStatement.condition with
      | .error e => .error e
      | .ok c =>
          match dumpBlock pack function fuel ifStatement.thenBlock (depth + 1) with
          | .error e => .error e
          | .ok thenText =>
              match ifStatement.elseBlock with
              | none =>
                  .ok (indent ++ "if" ++ kSpace ++ "(" ++ c ++ ")" ++ kSpace
                    ++ "\x7b\n" ++ thenText ++ indent ++ "\x7d\n")
              | some elseBlockId =>
                  match dumpBlock pack function fuel elseBlockId (depth + 1) with
                  | .error e => .error e
                  | .ok elseText =>
                      .ok (indent ++ "if" ++ kSpace ++ "(" ++ c ++ ")" ++ kSpace
                        ++ "\x7b\n" ++ thenText
                        ++ indent ++ "\x7d" ++ kSpace ++ "else" ++ kSpace ++ "\x7b\n"
                        ++ elseText ++ indent ++ "\x7d\n")
  | .switchStmt switchStatement =>
      match dumpValue pack function fuel switchStatement.condition with
      | .error e => .error e
      | .ok c =>
          match dumpBlock pack function fuel switchStatement.body (depth + 1) with
          | .error e => .error e
          | .ok bodyText =>
              .ok (indent ++ "switch" ++ kSpace ++ "(" ++ c ++ ")" ++ kSpace
                ++ "\x7b\n" ++ bodyText ++ indent ++ "\x7d\n")
  | .branch branchStatement =>
      let head :=
        match branchStatement.op with
        | .Discard => indent ++ "discard"
        | .TerminateInvocation => indent ++ "terminateInvocation"
        | .Demote => indent ++ "demote"
        | .TerminateRayEXT => indent ++ "terminateRayEXT"
        | .IgnoreIntersectionEXT => indent ++ "terminateIntersectionEXT"
        | .Return => indent ++ "return"
        | .Break => indent ++ "break"
        | .Continue => indent ++ "continue"
        | .Case => indentMinusOne ++ "case"
        | .Default => indentMinusOne ++ "default"
      let terminator :=
        match branchStatement.op with
        | .Case => ":\n"
        | .Default => ":\n"
        | _ => ";\n"
      match branchStatement.operand with
      | none => .ok (head ++ terminator)
      | some operand =>
          match dumpValue pack function fuel operand with
          | .error e => .error e
          | .ok o => .ok (head ++ " " ++ o ++ terminator)
  | .loop loopStatement =>
      if loopStatement.testFirst then
        match loopStatement.terminal with
        | some terminal =>
            match dumpValue pack function fuel loopStatement.condition with
            | .error e => .error e
            | .ok c =>
                match dumpRValue pack function fuel terminal with
                | .error e => .error e
                | .ok t =>
                    match dumpBlock pack function fuel loopStatement.body (depth + 1) with
                    | .error e => .error e
                    | .ok bodyText =>
                        .ok (indent ++ "for" ++ kSpace ++ "(;" ++ kSpace ++ c
                          ++ ";" ++ kSpace ++ t ++ ")" ++ kSpace ++ "\x7b\n"
                          ++ bodyText ++ indent ++ "\x7d\n")
        | none =>
            match dumpValue pack function fuel loopStatement.condition with
            | .error e => .error e
            | .ok c =>
                match dumpBlock pack function fuel loopStatement.body (depth + 1) with
                | .error e => .error e
                | .ok bodyText =>
                    .ok (indent ++ "while" ++ kSpace ++ "(" ++ c ++ ")" ++ kSpace
                      ++ "\x7b\n" ++ bodyText ++ indent ++ "\x7d\n")
      else
        match dumpBlock pack function fuel loopStatement.body (depth + 1) with
        | .error e => .error e
        | .ok bodyText =>
            match dumpValue pack function fuel loopStatement.condition with
            | .error e => .error e
            | .ok c =>
                .ok (indent ++ "do" ++ kSpace ++ "\x7b\n" ++ bodyText
                  ++ indent ++ "\x7d" ++ kSpace ++ "while" ++ kSpace ++ "("
                  ++ c ++ ");\n")
termination_by (fuel, 1, 0)

end

/-- The parameter loop of `dumpFunction` (ToGlsl.cpp lines 470 to 479): each
parameter is dumped with its type; every parameter after the first is
preceded by a comma and a space. -/
def dumpParamList (pack : PackFromGlsl) (function : FunctionDefinition)
    (parameters : List Parameter) (firstParameter : Bool) : EmitM :=
  match parameters with
  | [] => .ok ""
  | parameter :: rest =>
      match dumpLocalSymbol pack function parameter.name true with
      | .error e => .error e
      | .ok s =>
          match dumpParamList pack function rest false with
          | .error e => .error e
          | .ok r => .ok ((if firstParameter then "" else "," ++ kSpace) ++ s ++ r)

/-- The local-declaration loop of `dumpFunction` (ToGlsl.cpp lines 483 to
489): every local symbol that is not a parameter is declared on its own
indented line. -/
def dumpLocalDecls (pack : PackFromGlsl)
    (localSymbols : List (LocalSymbolId × LocalSymbol))
    (parameterSymbolIds : List LocalSymbolId) : EmitM :=
  match localSymbols with
  | [] => .ok ""
  | (localSymbolId, localSymbol) :: rest =>
      if parameterSymbolIds.contains localSymbolId then
        dumpLocalDecls pack rest parameterSymbolIds
      else
        match dumpType pack localSymbol.type with
        | .error e => .error e
        | .ok t =>
            match dumpLocalDecls pack rest parameterSymbolIds with
            | .error e => .error e
            | .ok r => .ok (kIndentAmount ++ t ++ kSpace ++ localSymbol.name ++ ";\n" ++ r)

/-- `dumpFunction` (ToGlsl.cpp lines 455 to 495).  With `dumpBody` false and
no entry in the definition table, nothing is emitted (the early return at
line 458); with `dumpBody` true a missing definition is a fatal assert.
Otherwise the signature is emitted, followed either by `;` and newline
(prototype) or by the brace-enclosed local declarations and body. -/
def dumpFunction (pack : PackFromGlsl) (fuel : Nat) (functionId : FunctionId)
    (dumpBody : Bool) : EmitM :=
  match pack.functionDefinitions functionId with
  | none => if dumpBody then .error .fault else .ok ""
  | some function =>
      match dumpType pack function.returnType with
      | .error e => .error e
      | .ok returnTypeText =>
          match dumpFunctionName pack function.name with
          | .error e => .error e
          | .ok nameText =>
              match dumpParamList pack function function.parameters true with
              | .error e => .error e
              | .ok paramsText =>
                  if dumpBody then
                    match dumpLocalDecls pack function.localSymbols
                        (function.parameters.map (fun p => p.name)) with
                    | .error e => .error e
                    | .ok declsText =>
                        match dumpBlock pack function fuel function.body 1 with
                        | .error e => .error e
                        | .ok bodyText =>
                            .ok (returnTypeText ++ " " ++ nameText ++ "(" ++ paramsText
                              ++ ")" ++ " \x7b\n" ++ declsText ++ bodyText ++ "\x7d\n")
                  else
                    .ok (returnTypeText ++ " " ++ nameText ++ "(" ++ paramsText ++ ");\n")

/-- One pass of `toGlsl` (ToGlsl.cpp lines 498 to 503): dump each function
handle of the list in order. -/
def dumpFunctions (pack : PackFromGlsl) (fuel : Nat) (functionIds : List FunctionId)
    (dumpBody : Bool) : EmitM :=
  match functionIds with
  | [] => .ok ""
  | functionId :: rest =>
      match dumpFunction pack fuel functionId dumpBody with
      | .error e => .error e
      | .ok s =>
          match dumpFunctions pack fuel rest dumpBody with
          | .error e => .error e
          | .ok r => .ok (s ++ r)

/-- `toGlsl` (ToGlsl.cpp lines 497 to 504): all prototypes in
`functionPrototypes` order, then all definitions in
`functionDefinitionOrder` order. -/
def toGlsl (pack : PackFromGlsl) (fuel : Nat) : EmitM :=
  match dumpFunctions pack fuel pack.functionPrototypes false with
  | .error e => .error e
  | .ok prototypes =>
      match dumpFunctions pack fuel pack.functionDefinitionOrder true with
      | .error e => .error e
      | .ok definitions => .ok (prototypes ++ definitions)

/-- The canonical symbol table of the spec (section 4.1): `SYMBOL[op]` for
every plain binary operator (arithmetic, bitwise, relational, logical, comma,
plain and compound assignment).  `Index` is deliberately absent, as the spec
excludes it from the parenthesized form, and so is everything that is not a
binary operator. -/
def binaryOpSymbol : RValueOperator → Option String
  | .Add => some "+"
  | .Sub => some "-"
  | .Mul => some "*"
  | .Div => some "/"
  | .Mod => some "%"
  | .RightShift => some ">>"
  | .LeftShift => some "<<"
  | .And => some "&"
  | .InclusiveOr => some "|"
  | .ExclusiveOr => some "^"
  | .Equal => some "=="
  | .NotEqual => some "!="
  | .LessThan => some "<"
  | .GreaterThan => some ">"
  | .LessThanEqual => some "<="
  | .GreaterThanEqual => some ">="
  | .Comma => some ","
  | .LogicalOr => some "||"
  | .LogicalXor => some "^^"
  | .LogicalAnd => some "&&"
  | .Assign => some "="
  | .AddAssign => some "+="
  | .SubAssign => some "-="
  | .MulAssign => some "*="
  | .DivAssign => some "/="
  | .ModAssign => some "%="
  | .AndAssign => some "&="
  | .InclusiveOrAssign => some "|="
  | .ExclusiveOrAssign => some "^="
  | .LeftShiftAssign => some "<<="
  | .RightShiftAssign => some ">>="
  | _ => none

/-- Fixed arity demanded by the asserts of `dumpRValueOperator`: 1 for the
unary operators, 2 for every binary operator including `Index`, 3 for
`Ternary`, and none for the operators handled by the fallback arm. -/
def operatorArity : RValueOperator → Option Nat
  | .Negative => some 1
  | .LogicalNot => some 1
  | .BitwiseNot => some 1
  | .PostIncrement => some 1
  | .PostDecrement => some 1
  | .PreIncrement => some 1
  | .PreDecrement => some 1
  | .ArrayLength => some 1
  | .Ternary => some 3
  | .ConstructStruct => none
  | .IndexStruct => none
  | .VectorSwizzle => none
  | _ => some 2

/-- Whether a statement is a `Case` or `Default` branch statement, the two
kinds that `dumpBlock` prints with the shorter `indentMinusOne` prefix. -/
def isCaseOrDefault : Statement → Bool
  | .branch b =>
      match b.op with
      | .Case => true
      | .Default => true
      | _ => false
  | _ => false

/-- A function definition with empty tables, usable as symbol context for
emissions that never resolve a local symbol. -/
def emptyFn : FunctionDefinition :=
  { returnType := ⟨0⟩
    name := ⟨0⟩
    parameters := []
    localSymbols := []
    body := ⟨0⟩ }

/-- A pack with empty tables. -/
def emptyPack : PackFromGlsl :=
  { functionNames := fun _ => none
    types := fun _ => none
    rValues := fun _ => none
    globalSymbols := fun _ => none
    statementBlocks := fun _ => none
    functionDefinitions := fun _ => none
    functionPrototypes := []
    functionDefinitionOrder := [] }

/-- The scalar type `float` with no precision and no array dimensions. -/
def floatType : GlslType := { name := "float", precision := "", arraySizes := [] }

/-- Symbol context of the scenario of claim C2: one local symbol `x`. -/
def c2Fn : FunctionDefinition :=
  { returnType := ⟨1⟩
    name := ⟨1⟩
    parameters := []
    localSymbols := [(⟨7⟩, { type := ⟨1⟩, name := "x" })]
    body := ⟨1⟩ }

/-- Pack of the scenario of claim C2: block 1 holds a single `If` whose
condition is `LogicalNot` of local symbol `x` and whose then block (block 2)
holds a single `Return` whose operand is the literal constant 1 (rvalue 2);
there is no else block. -/
def c2Pack : PackFromGlsl :=
  { functionNames := fun _ => none
    types := fun t => if t = ⟨1⟩ then some floatType else none
    rValues := fun r =>
      if r = ⟨1⟩ then
        some (.evaluable { op := .inl .LogicalNot, args := [.localSymbol ⟨7⟩] })
      else if r = ⟨2⟩ then some .literal
      else none
    globalSymbols := fun _ => none
    statementBlocks := fun b =>
      if b = ⟨1⟩ then
        some [.ifStmt { condition := .rvalue ⟨1⟩, thenBlock := ⟨2⟩, elseBlock := none }]
      else if b = ⟨2⟩ then
        some [.branch { op := .Return, operand := some (.rvalue ⟨2⟩) }]
      else none
    functionDefinitions := fun _ => none
    functionPrototypes := []
    functionDefinitionOrder := [] }

/-- Pack holding one empty statement block, used to exercise loop emission
with an empty body. -/
def c5Pack : PackFromGlsl :=
  { functionNames := fun _ => none
    types := fun _ => none
    rValues := fun _ => none
    globalSymbols := fun _ => none
    statementBlocks := fun b => if b = ⟨1⟩ then some [] else none
    functionDefinitions := fun _ => none
    functionPrototypes := []
    functionDefinitionOrder := [] }

/-- Function definition of spec Scenario E: two `float` parameters `a` and
`b`, return type `float`, empty body block. -/
def c6Fn : FunctionDefinition :=
  { returnType := ⟨1⟩
    name := ⟨1⟩
    parameters := [{ type := ⟨1⟩, name := ⟨1⟩ }, { type := ⟨1⟩, name := ⟨2⟩ }]
    localSymbols := [(⟨1⟩, { type := ⟨1⟩, name := "a" }), (⟨2⟩, { type := ⟨1⟩, name := "b" })]
    body := ⟨1⟩ }

/-- Pack of spec Scenario E: function handle 1 is named `f(vf1;vf1;` (a
mangled source name whose first parenthesis cuts the printed name to `f`)
and defined as `c6Fn`; function handle 2 appears in the prototype list but
has no definition. -/
def c6Pack : PackFromGlsl :=
  { functionNames := fun f => if f = ⟨1⟩ then some "f(vf1;vf1;" else none
    types := fun t => if t = ⟨1⟩ then some floatType else none
    rValues := fun _ => none
    globalSymbols := fun _ => none
    statementBlocks := fun b => if b = ⟨1⟩ then some [] else none
    functionDefinitions := fun f => if f = ⟨1⟩ then some c6Fn else none
    functionPrototypes := [⟨1⟩, ⟨2⟩]
    functionDefinitionOrder := [⟨1⟩] }

/-- Rank of a value reference, given a rank assignment on rvalue handles:
symbol references terminate immediately and rank 0, an rvalue reference has
the rank of its handle. -/
def valRankOf (rvRank : RValueId → Nat) : ValueId → Nat
  | .rvalue r => rvRank r
  | .globalSymbol _ => 0
  | .localSymbol _ => 0

/-- The value references an rvalue dumps: the arguments of an evaluable
node, nothing for a literal. -/
def rvalueArgsOf : RValue → List ValueId
  | .evaluable ev => ev.args
  | .literal => []

/-- Rank of a statement, given rank assignments on rvalue and block handles:
the maximum over every handle the statement emitter dereferences directly
(condition and operand values, terminal rvalues, nested blocks). -/
def stmtRankOf (rvRank : RValueId → Nat) (blkRank : StatementBlockId → Nat) :
    Statement → Nat
  | .rvalue r => rvRank r
  | .ifStmt s =>
      max (valRankOf rvRank s.condition)
        (max (blkRank s.thenBlock)
          (match s.elseBlock with
           | none => 0
           | some b => blkRank b))
  | .switchStmt s => max (valRankOf rvRank s.condition) (blkRank s.body)
  | .branch s =>
      match s.operand with
      | none => 0
      | some v => valRankOf rvRank v
  | .loop s =>
      max (valRankOf rvRank s.condition)
        (max (blkRank s.body)
          (match s.terminal with
           | none => 0
           | some t => rvRank t))

/-- Certificate that the rvalue and statement-block reference graphs of a
pack are acyclic: rank functions under which every reference strictly
decreases.  This is the "finite nesting" premise of the spec (section 5). -/
structure AcyclicPack (pack : PackFromGlsl) where
  rvRank : RValueId → Nat
  blkRank : StatementBlockId → Nat
  rv_lt : ∀ r rv, pack.rValues r = some rv →
    ∀ v ∈ rvalueArgsOf rv, valRankOf rvRank v < rvRank r
  blk_lt : ∀ b statements, pack.statementBlocks b = some statements →
    ∀ st ∈ statements, stmtRankOf rvRank blkRank st < blkRank b

/-- An emission result that did not run out of modelling fuel: the genuine
outcomes of the C++ code are exactly the settled results (text or fault). -/
def settled (e : EmitM) : Prop := e ≠ .error .noFuel

/-- Acyclicity certificate for `c6Pack`: it has no rvalues and only an empty
statement block. -/
def c6Acyclic : AcyclicPack c6Pack where
  rvRank := fun _ => 0
  blkRank := fun _ => 1
  rv_lt := by intro r rv h; simp [c6Pack] at h
  blk_lt := by
    intro b statements h st hst
    simp only [c6Pack] at h
    split at h
    · cases h; simp at hst
    · cases h

end Astrict

namespace FvkUtils

/-- Model of `CappedArray<T, CAPACITY>`
(filament/backend/src/vulkan/utils/CappedArray.h): the backing
`std::array` is embedded as a total function from index to element (reads
past the inserted region return whatever the backing storage holds, exactly
as the unchecked C++ accesses do) together with the fill counter `mInd`. -/
structure CappedArray (T : Type) (CAPACITY : Nat) where
  mArray : Nat → T
  mInd : Nat

namespace CappedArray

/-- `CappedArray::size` (CappedArray.h lines 123 to 125): returns `mInd`. -/
def size {T : Type} {CAPACITY : Nat} (c : CappedArray T CAPACITY) : Nat :=
  c.mInd

/-- `CappedArray::back` (CappedArray.h lines 85 to 88): asserts `mInd > 0`
and returns `*(mArray.begin() + mInd)`, the element at index `mInd`. -/
def back {T : Type} {CAPACITY : Nat} (c : CappedArray T CAPACITY) : T :=
  c.mArray c.mInd

/-- `CappedArray::insert` (CappedArray.h lines 99 to 102): asserts
`mInd < CAPACITY`, writes the item at index `mInd` and increments `mInd`. -/
def insert {T : Type} {CAPACITY : Nat} (c : CappedArray T CAPACITY) (item : T) :
    CappedArray T CAPACITY :=
  { mArray := fun i => if i = c.mInd then item else c.mArray i
    mInd := c.mInd + 1 }

/-- A concrete capped array over `Nat` with capacity 4, zero-filled backing
storage and no inserted elements. -/
def c10Base : CappedArray Nat 4 := { mArray := fun _ => 0, mInd := 0 }

end CappedArray

end FvkUtils

namespace Astrict

/-- Helper: successful rendering of the shared unary arm. -/
lemma dumpUnaryRValueOperator_ok (pack : PackFromGlsl) (function : FunctionDefinition)
    (fuel : Nat) (a : ValueId) (before after s : String)
    (h : dumpValue pack function fuel a = .ok s) :
    dumpUnaryRValueOperator pack function fuel [a] before after =
      .ok (before ++ s ++ after) := by
  simp [dumpUnaryRValueOperator, h]

/-- Helper: arity behaviour of the shared unary arm. -/
lemma dumpUnaryRValueOperator_arity (pack : PackFromGlsl) (function : FunctionDefinition)
    (fuel : Nat) (args : List ValueId) (before after : String) :
    (args.length ≠ 1 →
      dumpUnaryRValueOperator pack function fuel args before after = .error .fault) ∧
    (args.length = 1 →
      (∀ v ∈ args, ∃ s, dumpValue pack function fuel v = .ok s) →
      ∃ s, dumpUnaryRValueOperator pack function fuel args before after = .ok s) := by
  constructor
  · intro h
    rcases args with _ | ⟨a, _ | ⟨b, t⟩⟩
    · simp [dumpUnaryRValueOperator]
    · simp at h
    · simp [dumpUnaryRValueOperator]
  · intro h hall
    rcases args with _ | ⟨a, _ | ⟨b, t⟩⟩
    · simp at h
    · obtain ⟨s, hs⟩ := hall a (by simp)
      exact ⟨_, dumpUnaryRValueOperator_ok pack function fuel a before after s hs⟩
    · simp at h

/-- Helper: successful rendering of `dumpBinaryRValueOperator`. -/
lemma dumpBinaryRValueOperator_ok (pack : PackFromGlsl) (function : FunctionDefinition)
    (fuel : Nat) (op : RValueOperator) (a b : ValueId) (opString la lb : String)
    (ha : dumpValue pack function fuel a = .ok la)
    (hb : dumpValue pack function fuel b = .ok lb) :
    dumpBinaryRValueOperator pack function fuel op [a, b] opString =
      .ok ("(" ++ la ++ " " ++ opString ++ " " ++ lb ++ ")") := by
  simp [dumpBinaryRValueOperator, ha, hb, kSpace]

/-- Helper: arity behaviour of `dumpBinaryRValueOperator`. -/
lemma dumpBinaryRValueOperator_arity (pack : PackFromGlsl) (function : FunctionDefinition)
    (fuel : Nat) (op : RValueOperator) (args : List ValueId) (opString : String) :
    (args.length ≠ 2 →
      dumpBinaryRValueOperator pack function fuel op args opString = .error .fault) ∧
    (args.length = 2 →
      (∀ v ∈ args, ∃ s, dumpValue pack function fuel v = .ok s) →
      ∃ s, dumpBinaryRValueOperator pack function fuel op args opString = .ok s) := by
  constructor
  · intro h
    rcases args with _ | ⟨a, _ | ⟨b, _ | ⟨c, t⟩⟩⟩
    · simp [dumpBinaryRValueOperator]
    · simp [dumpBinaryRValueOperator]
    · simp at h
    · simp [dumpBinaryRValueOperator]
  · intro h hall
    rcases args with _ | ⟨a, _ | ⟨b, _ | ⟨c, t⟩⟩⟩
    · simp at h
    · simp at h
    · obtain ⟨la, ha⟩ := hall a (by simp)
      obtain ⟨lb, hb⟩ := hall b (by simp)
      exact ⟨_, dumpBinaryRValueOperator_ok pack function fuel op a b opString la lb ha hb⟩
    · simp at h

/-- Claim C3: for each of the three value-reference kinds, the sentinel
handle with id 0 always emits the fixed placeholder token, for every pack
and symbol context (so no table lookup can be involved) and never faults. -/
theorem sentinel_handles_emit_placeholders :
    ∀ (pack : PackFromGlsl) (function : FunctionDefinition) (fuel : Nat) (withType : Bool),
      dumpRValue pack function fuel ⟨0⟩ = .ok "INVALID_RVALUE" ∧
      dumpGlobalSymbol pack ⟨0⟩ = .ok "INVALID_GLOBAL_SYMBOL" ∧
      dumpLocalSymbol pack function ⟨0⟩ withType = .ok "INVALID_LOCAL_SYMBOL" := by
  intro pack function fuel withType
  refine ⟨?_, ?_, ?_⟩
  · simp [dumpRValue]
  · simp [dumpGlobalSymbol]
  · simp [dumpLocalSymbol]

/-- Claim C1: every plain binary operator emits exactly
`( lhs SYMBOL rhs )` with a single space on each side of its canonical
symbol and full outer parentheses, while `Index` emits `lhs[rhs]` with no
outer parentheses. -/
theorem binary_operator_emission :
    ∀ (pack : PackFromGlsl) (function : FunctionDefinition) (fuel : Nat)
      (a b : ValueId) (la lb : String),
      dumpValue pack function fuel a = .ok la →
      dumpValue pack function fuel b = .ok lb →
      (∀ op sym, binaryOpSymbol op = some sym →
        dumpRValueOperator pack function fuel op [a, b] =
          .ok ("(" ++ la ++ " " ++ sym ++ " " ++ lb ++ ")")) ∧
      dumpRValueOperator pack function fuel .Index [a, b] =
        .ok (la ++ "[" ++ lb ++ "]") := by
  intro pack function fuel a b la lb ha hb
  constructor
  · intro op sym hsym
    cases op <;> simp only [binaryOpSymbol, Option.some.injEq, reduceCtorEq] at hsym <;>
      subst hsym <;>
      simp only [dumpRValueOperator] <;>
      exact dumpBinaryRValueOperator_ok pack function fuel _ a b _ la lb ha hb
  · simp [dumpRValueOperator, ha, hb]

/-- Witness for claim C1 at a concrete input: the two arguments are sentinel
global-symbol references, the operator is first `Add` and then `Index`. -/
theorem binary_operator_emission_witness :
    dumpRValueOperator emptyPack emptyFn 0 .Add [.globalSymbol ⟨0⟩, .globalSymbol ⟨0⟩] =
      .ok "(INVALID_GLOBAL_SYMBOL + INVALID_GLOBAL_SYMBOL)" ∧
    dumpRValueOperator emptyPack emptyFn 0 .Index [.globalSymbol ⟨0⟩, .globalSymbol ⟨0⟩] =
      .ok "INVALID_GLOBAL_SYMBOL[INVALID_GLOBAL_SYMBOL]" := by
  have hv : dumpValue emptyPack emptyFn 0 (.globalSymbol ⟨0⟩) = .ok "INVALID_GLOBAL_SYMBOL" := by
    simp [dumpValue, dumpGlobalSymbol]
  have h := binary_operator_emission emptyPack emptyFn 0 _ _ _ _ hv hv
  constructor
  · rw [h.1 .Add "+" rfl]
    rfl
  · rw [h.2]
    rfl

/-- Claim C4: every fixed-arity operator faults on an argument list whose
length differs from its arity, and passes the arity check (the whole call
succeeds) whenever the length matches and every argument itself emits. -/
theorem operator_arity_check :
    ∀ (op : RValueOperator) (k : Nat), operatorArity op = some k →
    ∀ (pack : PackFromGlsl) (function : FunctionDefinition) (fuel : Nat)
      (args : List ValueId),
      (args.length ≠ k → dumpRValueOperator pack function fuel op args = .error .fault) ∧
      (args.length = k →
        (∀ v ∈ args, ∃ s, dumpValue pack function fuel v = .ok s) →
        ∃ s, dumpRValueOperator pack function fuel op args = .ok s) := by
  intro op k hk pack function fuel args
  cases op <;> simp only [operatorArity, Option.some.injEq, reduceCtorEq] at hk <;> subst hk
  case Index =>
    constructor
    · intro h
      rcases args with _ | ⟨a, _ | ⟨b, _ | ⟨c, t⟩⟩⟩
      · simp [dumpRValueOperator]
      · simp [dumpRValueOperator]
      · simp at h
      · simp [dumpRValueOperator]
    · intro h hall
      rcases args with _ | ⟨a, _ | ⟨b, _ | ⟨c, t⟩⟩⟩
      · simp at h
      · simp at h
      · obtain ⟨la, ha⟩ := hall a (by simp)
        obtain ⟨lb, hb⟩ := hall b (by simp)
        simp [dumpRValueOperator, ha, hb]
      · simp at h
  case Ternary =>
    constructor
    · intro h
      rcases args with _ | ⟨a, _ | ⟨b, _ | ⟨c, _ | ⟨d, t⟩⟩⟩⟩
      · simp [dumpRValueOperator]
      · simp [dumpRValueOperator]
      · simp [dumpRValueOperator]
      · simp at h
      · simp [dumpRValueOperator]
    · intro h hall
      rcases args with _ | ⟨a, _ | ⟨b, _ | ⟨c, _ | ⟨d, t⟩⟩⟩⟩
      · simp at h
      · simp at h
      · simp at h
      · obtain ⟨la, ha⟩ := hall a (by simp)
        obtain ⟨lb, hb⟩ := hall b (by simp)
        obtain ⟨lc, hc⟩ := hall c (by simp)
        simp [dumpRValueOperator, ha, hb, hc]
      · simp at h
  all_goals
    simp only [dumpRValueOperator]
  all_goals
    first
      | exact dumpUnaryRValueOperator_arity pack function fuel args _ _
      | exact dumpBinaryRValueOperator_arity pack function fuel _ args _

/-- Witness for claim C4 at a concrete input: `Negative` with two arguments
faults, `Negative` with one argument emits. -/
theorem operator_arity_check_witness :
    dumpRValueOperator emptyPack emptyFn 0 .Negative
      [.globalSymbol ⟨0⟩, .globalSymbol ⟨0⟩] = .error .fault ∧
    ∃ s, dumpRValueOperator emptyPack emptyFn 0 .Negative [.globalSymbol ⟨0⟩] = .ok s := by
  have h := operator_arity_check .Negative 1 rfl emptyPack emptyFn 0
  refine ⟨(h _).1 (by simp), (h _).2 (by simp) ?_⟩
  intro v hv
  simp only [List.mem_singleton] at hv
  subst hv
  have hgs : dumpValue emptyPack emptyFn 0 (.globalSymbol ⟨0⟩) = .ok "INVALID_GLOBAL_SYMBOL" := by
    simp [dumpValue, dumpGlobalSymbol]
  exact ⟨_, hgs⟩

end Astrict

namespace Astrict

/-- Claim C5: exactly the three loop shapes.  With `testFirst` true and a
terminal present the loop prints as a `for` with empty initializer clause and
the terminal as a bare expression inside the parentheses; with `testFirst`
true and no terminal it prints as a `while`; with `testFirst` false it
prints as a `do while` regardless of the terminal. -/
theorem loop_emission_shapes :
    ∀ (pack : PackFromGlsl) (function : FunctionDefinition) (fuel depth : Nat)
      (condition : ValueId) (body : StatementBlockId) (c b : String),
      dumpValue pack function fuel condition = .ok c →
      dumpBlock pack function fuel body (depth + 1) = .ok b →
      (∀ (terminal : RValueId) (t : String),
        dumpRValue pack function fuel terminal = .ok t →
        dumpStatement pack function fuel
          (.loop { testFirst := true, terminal := some terminal,
                   condition := condition, body := body }) depth =
          .ok (indentStr depth ++ "for (; " ++ c ++ "; " ++ t ++ ") \x7b\n"
            ++ b ++ indentStr depth ++ "\x7d\n")) ∧
      (dumpStatement pack function fuel
          (.loop { testFirst := true, terminal := none,
                   condition := condition, body := body }) depth =
        .ok (indentStr depth ++ "while (" ++ c ++ ") \x7b\n"
          ++ b ++ indentStr depth ++ "\x7d\n")) ∧
      (∀ terminal : Option RValueId,
        dumpStatement pack function fuel
          (.loop { testFirst := false, terminal := terminal,
                   condition := condition, body := body }) depth =
        .ok (indentStr depth ++ "do \x7b\n" ++ b ++ indentStr depth
          ++ "\x7d while (" ++ c ++ ");\n")) := by
  intro pack function fuel depth condition body c b hc hb
  refine ⟨?_, ?_, ?_⟩
  · intro terminal t ht
    simp [dumpStatement, hc, hb, ht, kSpace, String.append_assoc]
  · simp [dumpStatement, hc, hb, kSpace, String.append_assoc]
  · intro terminal
    simp [dumpStatement, hc, hb, kSpace, String.append_assoc]

/-- Witness for claim C5 at a concrete input: sentinel condition, sentinel
terminal and an empty body block, each of the three loop shapes at depth
zero. -/
theorem loop_emission_shapes_witness :
    dumpStatement c5Pack emptyFn 1
      (.loop { testFirst := true, terminal := some ⟨0⟩,
               condition := .globalSymbol ⟨0⟩, body := ⟨1⟩ }) 0 =
      .ok "for (; INVALID_GLOBAL_SYMBOL; INVALID_RVALUE) \x7b\n\x7d\n" ∧
    dumpStatement c5Pack emptyFn 1
      (.loop { testFirst := true, terminal := none,
               condition := .globalSymbol ⟨0⟩, body := ⟨1⟩ }) 0 =
      .ok "while (INVALID_GLOBAL_SYMBOL) \x7b\n\x7d\n" ∧
    dumpStatement c5Pack emptyFn 1
      (.loop { testFirst := false, terminal := none,
               condition := .globalSymbol ⟨0⟩, body := ⟨1⟩ }) 0 =
      .ok "do \x7b\n\x7d while (INVALID_GLOBAL_SYMBOL);\n" := by
  have hc : dumpValue c5Pack emptyFn 1 (.globalSymbol ⟨0⟩) = .ok "INVALID_GLOBAL_SYMBOL" := by
    simp [dumpValue, dumpGlobalSymbol]
  have hb : dumpBlock c5Pack emptyFn 1 ⟨1⟩ (0 + 1) = .ok "" := by
    simp [dumpBlock, dumpStatements, c5Pack]
  have ht : dumpRValue c5Pack emptyFn 1 ⟨0⟩ = .ok "INVALID_RVALUE" := by
    simp [dumpRValue]
  have h := loop_emission_shapes c5Pack emptyFn 1 0 (.globalSymbol ⟨0⟩) ⟨1⟩ _ _ hc hb
  refine ⟨?_, ?_, ?_⟩
  · rw [h.1 ⟨0⟩ _ ht]
    rfl
  · rw [h.2.1]
    rfl
  · rw [h.2.2 none]
    rfl

/-- Claim C2 evidence: the statement block of spec Scenario B (an `If` with
a `LogicalNot` condition on local symbol `x`, then-block a `Return` whose
operand is the literal constant 1, no else-block), emitted at depth 0,
produces `return LITERAL;` on the inner line, because `dumpRValue` prints
the fixed placeholder `LITERAL` for every literal rvalue; the claimed text
with `return 1;` is therefore not produced. -/
theorem scenario_b_emits_literal_placeholder :
    dumpBlock c2Pack c2Fn 9 ⟨1⟩ 0 = .ok "if (!(x)) \x7b\n  return LITERAL;\n\x7d\n" ∧
    ("if (!(x)) \x7b\n  return LITERAL;\n\x7d\n" : String) ≠
      "if (!(x)) \x7b\n  return 1;\n\x7d\n" := by
  constructor
  · simp [dumpBlock, dumpStatements, dumpStatement, dumpValue, dumpRValue,
      dumpRValueOperator, dumpUnaryRValueOperator, dumpLocalSymbol, c2Pack, c2Fn,
      indentStr, indentMinusOneStr, kSpace, kIndentAmount]
    rfl
  · decide

/-- Claim C6: the prototype pass emits nothing for a function handle with no
entry in the definition table, and otherwise emits exactly return type,
space, name, the parenthesized comma-space parameter list, then a semicolon
and newline. -/
theorem prototype_pass_emission :
    ∀ (pack : PackFromGlsl) (fuel : Nat) (functionId : FunctionId),
      (pack.functionDefinitions functionId = none →
        dumpFunction pack fuel functionId false = .ok "") ∧
      (∀ (function : FunctionDefinition) (rt nm ps : String),
        pack.functionDefinitions functionId = some function →
        dumpType pack function.returnType = .ok rt →
        dumpFunctionName pack function.name = .ok nm →
        dumpParamList pack function function.parameters true = .ok ps →
        dumpFunction pack fuel functionId false =
          .ok (rt ++ " " ++ nm ++ "(" ++ ps ++ ");\n")) := by
  intro pack fuel functionId
  constructor
  · intro h
    simp [dumpFunction, h]
  · intro function rt nm ps hdef hrt hnm hps
    simp [dumpFunction, hdef, hrt, hnm, hps, String.append_assoc]

/-- Witness for claim C6 at a concrete input: in `c6Pack`, handle 2 has no
definition and emits nothing; handle 1 is spec Scenario E and emits the full
prototype. -/
theorem prototype_pass_emission_witness :
    dumpFunction c6Pack 0 ⟨2⟩ false = .ok "" ∧
    dumpFunction c6Pack 0 ⟨1⟩ false = .ok "float f(float a, float b);\n" := by
  have h2 := (prototype_pass_emission c6Pack 0 ⟨2⟩).1 (by simp [c6Pack])
  have hdef : c6Pack.functionDefinitions ⟨1⟩ = some c6Fn := by simp [c6Pack]
  have hrt : dumpType c6Pack c6Fn.returnType = .ok "float" := by
    simp [dumpType, c6Pack, c6Fn, floatType]
    rfl
  have hnm : dumpFunctionName c6Pack c6Fn.name = .ok "f" := by
    have : nameBeforeParen "f(vf1;vf1;" = "f" := by decide
    simp [dumpFunctionName, c6Pack, c6Fn, this]
  have hps : dumpParamList c6Pack c6Fn c6Fn.parameters true = .ok "float a, float b" := by
    rfl
  have h1 := (prototype_pass_emission c6Pack 0 ⟨1⟩).2 c6Fn _ _ _ hdef hrt hnm hps
  refine ⟨h2, ?_⟩
  rw [h1]
  rfl

end Astrict

namespace FvkUtils

namespace CappedArray

/-- Claim C10: for a `CappedArray` of size `n` with `0 < n < CAPACITY`,
`back` returns the element stored at internal index `n`, while the most
recently inserted element resides at index `n - 1`; `back` therefore does
not read the slot of the last insertion. -/
theorem back_off_by_one :
    ∀ (T : Type) (CAPACITY : Nat) (c : CappedArray T CAPACITY) (n : Nat),
      c.size = n → 0 < n → n < CAPACITY →
      c.back = c.mArray n ∧
      ∀ (c₀ : CappedArray T CAPACITY) (x : T), c = c₀.insert x →
        c.mArray (n - 1) = x := by
  intro T CAPACITY c n hsize hpos hlt
  constructor
  · rw [← hsize]
    rfl
  · intro c₀ x hc
    subst hc
    have hn : n = c₀.mInd + 1 := by
      rw [← hsize]
      rfl
    subst hn
    simp [CappedArray.insert]

/-- Witness for claim C10 at a concrete input: inserting 5 into the empty
zero-filled array of capacity 4 gives size 1, yet `back` reads slot 1 and
returns 0, not the just-inserted 5 sitting in slot 0. -/
theorem back_off_by_one_witness :
    (c10Base.insert 5).back = (c10Base.insert 5).mArray 1 ∧
    (c10Base.insert 5).mArray 0 = 5 ∧
    (c10Base.insert 5).back = 0 ∧ (5 : Nat) ≠ 0 := by
  have h := back_off_by_one Nat 4 (c10Base.insert 5) 1 rfl (by decide) (by decide)
  refine ⟨h.1, h.2 c10Base 5 rfl, ?_, by decide⟩
  rw [h.1]
  simp [c10Base, CappedArray.insert]

end CappedArray

end FvkUtils

namespace Astrict

/-- Helper: every successful statement emission starts with the indent
prefix selected by the statement kind: `indentMinusOne` followed directly by
the `case` or `default` keyword for those two branch kinds, the full
`indent` for every other statement. -/
lemma dumpStatement_indent_shape (pack : PackFromGlsl) (function : FunctionDefinition)
    (fuel depth : Nat) (statement : Statement) (s : String)
    (hok : dumpStatement pack function fuel statement depth = .ok s) :
    (isCaseOrDefault statement = true →
      (∃ u, s = indentMinusOneStr depth ++ "case" ++ u) ∨
      (∃ u, s = indentMinusOneStr depth ++ "default" ++ u)) ∧
    (isCaseOrDefault statement = false →
      ∃ r, s = indentStr depth ++ r) := by
  cases statement with
  | rvalue r =>
      refine ⟨fun h => by simp [isCaseOrDefault] at h, fun _ => ?_⟩
      cases hr : dumpRValue pack function fuel r with
      | error e => simp [dumpStatement, hr] at hok
      | ok v =>
          simp only [dumpStatement, hr, Except.ok.injEq] at hok
          subst hok
          exact ⟨_, by rw [String.append_assoc]⟩
  | ifStmt is =>
      refine ⟨fun h => by simp [isCaseOrDefault] at h, fun _ => ?_⟩
      cases hc : dumpValue pack function fuel is.condition with
      | error e => simp [dumpStatement, hc] at hok
      | ok c =>
          cases ht : dumpBlock pack function fuel is.thenBlock (depth + 1) with
          | error e => simp [dumpStatement, hc, ht] at hok
          | ok tb =>
              cases he : is.elseBlock with
              | none =>
                  simp only [dumpStatement, hc, ht, he, Except.ok.injEq] at hok
                  subst hok
                  refine ⟨"if" ++ kSpace ++ "(" ++ c ++ ")" ++ kSpace ++ "\x7b\n"
                    ++ tb ++ indentStr depth ++ "\x7d\n", ?_⟩
                  simp only [String.append_assoc]
              | some eb =>
                  cases hee : dumpBlock pack function fuel eb (depth + 1) with
                  | error e => simp [dumpStatement, hc, ht, he, hee] at hok
                  | ok ebt =>
                      simp only [dumpStatement, hc, ht, he, hee, Except.ok.injEq] at hok
                      subst hok
                      refine ⟨"if" ++ kSpace ++ "(" ++ c ++ ")" ++ kSpace ++ "\x7b\n"
                        ++ tb ++ indentStr depth ++ "\x7d" ++ kSpace ++ "else" ++ kSpace
                        ++ "\x7b\n" ++ ebt ++ indentStr depth ++ "\x7d\n", ?_⟩
                      simp only [String.append_assoc]
  | switchStmt sw =>
      refine ⟨fun h => by simp [isCaseOrDefault] at h, fun _ => ?_⟩
      cases hc : dumpValue pack function fuel sw.condition with
      | error e => simp [dumpStatement, hc] at hok
      | ok c =>
          cases hb : dumpBlock pack function fuel sw.body (depth + 1) with
          | error e => simp [dumpStatement, hc, hb] at hok
          | ok bt =>
              simp only [dumpStatement, hc, hb, Except.ok.injEq] at hok
              subst hok
              refine ⟨"switch" ++ kSpace ++ "(" ++ c ++ ")" ++ kSpace ++ "\x7b\n"
                ++ bt ++ indentStr depth ++ "\x7d\n", ?_⟩
              simp only [String.append_assoc]
  | branch b =>
      obtain ⟨op, operand⟩ := b
      cases operand with
      | none =>
          cases op <;> simp only [dumpStatement, Except.ok.injEq] at hok <;> subst hok
          case Case =>
              exact ⟨fun h => Or.inl ⟨":\n", rfl⟩,
                fun h => by simp only [isCaseOrDefault, reduceCtorEq] at h⟩
          case Default =>
              exact ⟨fun h => Or.inr ⟨":\n", rfl⟩,
                fun h => by simp only [isCaseOrDefault, reduceCtorEq] at h⟩
          all_goals
            exact ⟨fun h => by simp only [isCaseOrDefault, reduceCtorEq] at h,
              fun h => ⟨_, by rw [String.append_assoc]⟩⟩
      | some v =>
          cases hv : dumpValue pack function fuel v with
          | error e =>
              cases op <;> simp [dumpStatement, hv] at hok
          | ok o =>
              cases op <;> simp only [dumpStatement, hv, Except.ok.injEq] at hok <;>
                subst hok
              case Case =>
                  exact ⟨fun h => Or.inl ⟨" " ++ o ++ ":\n",
                      by simp only [String.append_assoc]⟩,
                    fun h => by simp only [isCaseOrDefault, reduceCtorEq] at h⟩
              case Default =>
                  exact ⟨fun h => Or.inr ⟨" " ++ o ++ ":\n",
                      by simp only [String.append_assoc]⟩,
                    fun h => by simp only [isCaseOrDefault, reduceCtorEq] at h⟩
              all_goals
                exact ⟨fun h => by simp only [isCaseOrDefault, reduceCtorEq] at h,
                  fun h => ⟨_, by rw [String.append_assoc, String.append_assoc,
                    String.append_assoc]⟩⟩
  | loop lp =>
      refine ⟨fun h => by simp [isCaseOrDefault] at h, fun _ => ?_⟩
      cases htf : lp.testFirst with
      | true =>
          cases hterm : lp.terminal with
          | some terminal =>
              cases hc : dumpValue pack function fuel lp.condition with
              | error e => simp [dumpStatement, htf, hterm, hc] at hok
              | ok c =>
                  cases ht : dumpRValue pack function fuel terminal with
                  | error e => simp [dumpStatement, htf, hterm, hc, ht] at hok
                  | ok t =>
                      cases hb : dumpBlock pack function fuel lp.body (depth + 1) with
                      | error e => simp [dumpStatement, htf, hterm, hc, ht, hb] at hok
                      | ok bt =>
                          simp only [dumpStatement, htf, hterm, hc, ht, hb,
                            eq_self_iff_true, if_true, Except.ok.injEq] at hok
                          subst hok
                          refine ⟨"for" ++ kSpace ++ "(;" ++ kSpace ++ c ++ ";" ++ kSpace
                            ++ t ++ ")" ++ kSpace ++ "\x7b\n" ++ bt ++ indentStr depth
                            ++ "\x7d\n", ?_⟩
                          simp only [String.append_assoc]
          | none =>
              cases hc : dumpValue pack function fuel lp.condition with
              | error e => simp [dumpStatement, htf, hterm, hc] at hok
              | ok c =>
                  cases hb : dumpBlock pack function fuel lp.body (depth + 1) with
                  | error e => simp [dumpStatement, htf, hterm, hc, hb] at hok
                  | ok bt =>
                      simp only [dumpStatement, htf, hterm, hc, hb,
                        eq_self_iff_true, if_true, Except.ok.injEq] at hok
                      subst hok
                      refine ⟨"while" ++ kSpace ++ "(" ++ c ++ ")" ++ kSpace ++ "\x7b\n"
                        ++ bt ++ indentStr depth ++ "\x7d\n", ?_⟩
                      simp only [String.append_assoc]
      | false =>
          cases hb : dumpBlock pack function fuel lp.body (depth + 1) with
          | error e => simp [dumpStatement, htf, hb] at hok
          | ok bt =>
              cases hc : dumpValue pack function fuel lp.condition with
              | error e => simp [dumpStatement, htf, hb, hc] at hok
              | ok c =>
                  simp only [dumpStatement, htf, hb, hc, reduceCtorEq, if_false,
                    Except.ok.injEq] at hok
                  subst hok
                  refine ⟨"do" ++ kSpace ++ "\x7b\n" ++ bt ++ indentStr depth ++ "\x7d"
                    ++ kSpace ++ "while" ++ kSpace ++ "(" ++ c ++ ");\n", ?_⟩
                  simp only [String.append_assoc]


end Astrict

namespace Astrict

/-- Claim C7 counterexample: at depth 0 both indent strings are empty, so a
`Case` and a sibling `Return` in the same block are printed with the same
(empty) indentation prefix.  There is no common block prefix `p` such that
the `Case` line starts at `p` while the ordinary statement starts at `p`
plus one extra indent unit, which is what the claim asserts. -/
theorem case_indent_depth_zero_counterexample :
    dumpStatement emptyPack emptyFn 1 (.branch { op := .Case, operand := none }) 0 =
      .ok "case:\n" ∧
    dumpStatement emptyPack emptyFn 1 (.branch { op := .Return, operand := none }) 0 =
      .ok "return;\n" ∧
    ¬ ∃ p : String,
        ("case:\n" : String) = p ++ "case:\n" ∧
        ("return;\n" : String) = p ++ kIndentAmount ++ "return;\n" := by
  refine ⟨?_, ?_, ?_⟩
  · simp [dumpStatement, indentMinusOneStr, indentStr]
    rfl
  · simp [dumpStatement, indentMinusOneStr, indentStr]
    rfl
  · rintro ⟨p, h1, h2⟩
    have hd := congrArg String.data h1
    simp only [String.data_append] at hd
    have hp : p.data = [] := by
      have := congrArg List.length hd
      simp only [List.length_append] at this
      have : p.data.length = 0 := by omega
      exact List.eq_nil_of_length_eq_zero this
    have hpe : p = "" := by
      cases p with
      | mk d =>
          have hd2 : d = [] := hp
          subst hd2
          rfl
    subst hpe
    rw [show ("" ++ kIndentAmount : String) = "  " from rfl] at h2
    exact absurd h2 (by decide)

/-- Claim C7 amended: at every depth of at least 1 (which covers every block
reached from function emission, since bodies start at depth 1), `Case` and
`Default` branch statements are printed with the `indentMinusOne` prefix,
exactly one two-space unit shorter than the `indent` prefix every other
statement of the same block receives; at depth 0 both prefixes are empty. -/
theorem case_default_dedent_amended :
    ∀ (pack : PackFromGlsl) (function : FunctionDefinition) (fuel depth : Nat)
      (statement : Statement) (s : String),
      1 ≤ depth →
      dumpStatement pack function fuel statement depth = .ok s →
      (isCaseOrDefault statement = true →
        (∃ u, s = indentMinusOneStr depth ++ "case" ++ u) ∨
        (∃ u, s = indentMinusOneStr depth ++ "default" ++ u)) ∧
      (isCaseOrDefault statement = false →
        ∃ r, s = indentStr depth ++ r) ∧
      (indentMinusOneStr depth).length + 2 = (indentStr depth).length := by
  intro pack function fuel depth statement s hdepth hok
  have h := dumpStatement_indent_shape pack function fuel depth statement s hok
  refine ⟨h.1, h.2, ?_⟩
  have hpos : depth > 0 := hdepth
  simp [indentStr, hpos]
  rfl

/-- Witness for claim C7 at a concrete input: at depth 1 a `Case` prints
with the empty `indentMinusOne` prefix while a `Return` prints with the
two-space `indent` prefix. -/
theorem case_default_dedent_amended_witness :
    ((∃ u, ("case:\n" : String) = indentMinusOneStr 1 ++ "case" ++ u) ∨
     (∃ u, ("case:\n" : String) = indentMinusOneStr 1 ++ "default" ++ u)) ∧
    (∃ r, ("  return;\n" : String) = indentStr 1 ++ r) ∧
    (indentMinusOneStr 1).length + 2 = (indentStr 1).length := by
  have hcase : dumpStatement emptyPack emptyFn 1
      (.branch { op := .Case, operand := none }) 1 = .ok "case:\n" := by
    simp [dumpStatement, indentMinusOneStr, indentStr]
    rfl
  have hret : dumpStatement emptyPack emptyFn 1
      (.branch { op := .Return, operand := none }) 1 = .ok "  return;\n" := by
    simp [dumpStatement, indentMinusOneStr, indentStr, kIndentAmount]
    rfl
  have h1 := case_default_dedent_amended emptyPack emptyFn 1 1 _ _ (le_refl 1) hcase
  have h2 := case_default_dedent_amended emptyPack emptyFn 1 1 _ _ (le_refl 1) hret
  exact ⟨h1.1 rfl, h2.2.1 rfl, h1.2.2⟩

/-- Helper: decomposition of a list at the first element failing the
predicate: the list is its `takeWhile` prefix followed by a remainder that
is either empty or starts with an element refuting the predicate. -/
lemma takeWhile_decomp {α : Type} (p : α → Bool) :
    ∀ l : List α,
      ∃ rest, l = l.takeWhile p ++ rest ∧ (∀ x ∈ l.takeWhile p, p x = true) ∧
        (rest = [] ∨ ∃ x t, rest = x :: t ∧ p x = false) := by
  intro l
  induction l with
  | nil => exact ⟨[], rfl, by simp, Or.inl rfl⟩
  | cons x l ih =>
      cases hp : p x with
      | true =>
          obtain ⟨rest, h1, h2, h3⟩ := ih
          refine ⟨rest, ?_, ?_, h3⟩
          · simp only [List.takeWhile_cons, hp, if_true, List.cons_append]
            exact congrArg (x :: ·) h1
          · intro y hy
            simp only [List.takeWhile_cons, hp, if_true, List.mem_cons] at hy
            rcases hy with rfl | hy
            · exact hp
            · exact h2 y hy
      | false =>
          refine ⟨x :: l, ?_, ?_, Or.inr ⟨x, l, rfl, hp⟩⟩
          · simp [List.takeWhile_cons, hp]
          · intro y hy
            simp [List.takeWhile_cons, hp] at hy

/-- Claim C9: whenever a function name is emitted it is printed truncated at
the first opening parenthesis of the stored name (the whole name when none
occurs): `dumpFunctionName` prints exactly the longest paren-free prefix,
and a call expression embeds that prefix before its argument list. -/
theorem function_name_truncated_at_paren :
    ∀ (pack : PackFromGlsl) (functionId : FunctionId) (name : String),
      pack.functionNames functionId = some name →
      dumpFunctionName pack functionId = .ok (nameBeforeParen name) ∧
      (∃ rest, name.data = (nameBeforeParen name).data ++ rest ∧
        (∀ c ∈ (nameBeforeParen name).data, c ≠ '(') ∧
        (rest = [] ∨ ∃ t, rest = '(' :: t)) ∧
      (∀ (function : FunctionDefinition) (fuel : Nat) (args : List ValueId) (out : String),
        dumpRValueFunctionCall pack function fuel functionId args = .ok out →
        ∃ argText, out = nameBeforeParen name ++ "(" ++ argText ++ ")") := by
  intro pack functionId name hname
  refine ⟨by simp [dumpFunctionName, hname], ?_, ?_⟩
  · obtain ⟨rest, h1, h2, h3⟩ := takeWhile_decomp (fun c => c ≠ '(') name.data
    refine ⟨rest, h1, ?_, ?_⟩
    · intro c hc
      have := h2 c hc
      simpa using this
    · rcases h3 with rfl | ⟨x, t, rfl, hx⟩
      · exact Or.inl rfl
      · refine Or.inr ⟨t, ?_⟩
        have : x = '(' := by simpa using hx
        rw [this]
  · intro function fuel args out hout
    cases hargs : dumpArgListComma pack function fuel args true with
    | error e =>
        simp [dumpRValueFunctionCall, dumpFunctionName, hname, hargs] at hout
    | ok argText =>
        simp only [dumpRValueFunctionCall, dumpFunctionName, hname, hargs,
          Except.ok.injEq] at hout
        subst hout
        exact ⟨argText, rfl⟩

/-- Witness for claim C9 at a concrete input: the stored name
`f(vf1;vf1;` of function handle 1 in `c6Pack` prints as `f`. -/
theorem function_name_truncated_at_paren_witness :
    dumpFunctionName c6Pack ⟨1⟩ = .ok "f" ∧
    ∃ rest, ("f(vf1;vf1;" : String).data = ("f" : String).data ++ rest ∧
      (rest = [] ∨ ∃ t, rest = '(' :: t) := by
  have h := function_name_truncated_at_paren c6Pack ⟨1⟩ "f(vf1;vf1;" (by simp [c6Pack])
  have he : nameBeforeParen "f(vf1;vf1;" = "f" := by decide
  obtain ⟨rest, h1, h2, h3⟩ := h.2.1
  rw [he] at h1
  exact ⟨by rw [h.1, he], rest, h1, h3⟩

end Astrict

namespace Astrict

/-- Helper: a success is settled. -/
lemma settled_ok (s : String) : settled (.ok s) := by simp [settled]

/-- Helper: a fault is settled (the C++ aborts there; only fuel exhaustion
is a modelling artifact). -/
lemma settled_fault : settled (.error .fault) := by simp [settled]

/-- Helper: `dumpFunctionName` never runs out of fuel. -/
lemma settled_dumpFunctionName (pack : PackFromGlsl) (functionId : FunctionId) :
    settled (dumpFunctionName pack functionId) := by
  cases h : pack.functionNames functionId <;> simp [dumpFunctionName, h, settled]

/-- Helper: `dumpType` never runs out of fuel. -/
lemma settled_dumpType (pack : PackFromGlsl) (typeId : TypeId) :
    settled (dumpType pack typeId) := by
  cases h : pack.types typeId <;> simp [dumpType, h, settled]

/-- Helper: `dumpGlobalSymbol` never runs out of fuel. -/
lemma settled_dumpGlobalSymbol (pack : PackFromGlsl) (globalSymbolId : GlobalSymbolId) :
    settled (dumpGlobalSymbol pack globalSymbolId) := by
  by_cases h0 : globalSymbolId.id = 0
  · simp [dumpGlobalSymbol, h0, settled]
  · cases h : pack.globalSymbols globalSymbolId <;>
      simp [dumpGlobalSymbol, h0, h, settled]

/-- Helper: `dumpLocalSymbol` never runs out of fuel. -/
lemma settled_dumpLocalSymbol (pack : PackFromGlsl) (function : FunctionDefinition)
    (localSymbolId : LocalSymbolId) (withType : Bool) :
    settled (dumpLocalSymbol pack function localSymbolId withType) := by
  by_cases h0 : localSymbolId.id = 0
  · simp [dumpLocalSymbol, h0, settled]
  · cases hl : function.localSymbols.lookup localSymbolId with
    | none => simp [dumpLocalSymbol, h0, hl, settled]
    | some localSymbol =>
        cases withType with
        | false => simp [dumpLocalSymbol, h0, hl, settled]
        | true =>
            cases ht : dumpType pack localSymbol.type with
            | error e =>
                have hs := settled_dumpType pack localSymbol.type
                rw [ht] at hs
                simp only [dumpLocalSymbol, h0, hl, ht]
                simpa using hs
            | ok t => simp [dumpLocalSymbol, h0, hl, ht, settled]

/-- Helper: the shared unary arm is settled when its arguments are. -/
lemma settled_dumpUnaryRValueOperator (pack : PackFromGlsl) (function : FunctionDefinition)
    (fuel : Nat) (args : List ValueId) (before after : String)
    (hargs : ∀ v ∈ args, settled (dumpValue pack function fuel v)) :
    settled (dumpUnaryRValueOperator pack function fuel args before after) := by
  rcases args with _ | ⟨a, _ | ⟨b, t⟩⟩
  · simp [dumpUnaryRValueOperator, settled]
  · have ha := hargs a (by simp)
    simp only [dumpUnaryRValueOperator]
    split
    · rename_i e heq
      rw [heq] at ha
      exact ha
    · exact settled_ok _
  · simp [dumpUnaryRValueOperator, settled]

/-- Helper: `dumpBinaryRValueOperator` is settled when its arguments are. -/
lemma settled_dumpBinaryRValueOperator (pack : PackFromGlsl) (function : FunctionDefinition)
    (fuel : Nat) (op : RValueOperator) (args : List ValueId) (opString : String)
    (hargs : ∀ v ∈ args, settled (dumpValue pack function fuel v)) :
    settled (dumpBinaryRValueOperator pack function fuel op args opString) := by
  rcases args with _ | ⟨a, _ | ⟨b, _ | ⟨c, t⟩⟩⟩
  · simp [dumpBinaryRValueOperator, settled]
  · simp [dumpBinaryRValueOperator, settled]
  · have ha := hargs a (by simp)
    have hb := hargs b (by simp)
    simp only [dumpBinaryRValueOperator]
    split
    · rename_i e heq
      rw [heq] at ha
      exact ha
    · rename_i la heq
      split
      · rename_i e heq2
        rw [heq2] at hb
        exact hb
      · exact settled_ok _
  · simp [dumpBinaryRValueOperator, settled]

/-- Helper: the space-separated argument dump is settled when its arguments
are. -/
lemma settled_dumpArgListSpace (pack : PackFromGlsl) (function : FunctionDefinition)
    (fuel : Nat) (args : List ValueId)
    (hargs : ∀ v ∈ args, settled (dumpValue pack function fuel v)) :
    settled (dumpArgListSpace pack function fuel args) := by
  induction args with
  | nil => simp [dumpArgListSpace, settled]
  | cons a rest ih =>
      have ha := hargs a (by simp)
      have hr := ih (fun v hv => hargs v (by simp [hv]))
      simp only [dumpArgListSpace]
      split
      · rename_i e heq
        rw [heq] at ha
        exact ha
      · rename_i s heq
        split
        · rename_i e heq2
          rw [heq2] at hr
          exact hr
        · exact settled_ok _

/-- Helper: the comma-separated argument dump is settled when its arguments
are. -/
lemma settled_dumpArgListComma (pack : PackFromGlsl) (function : FunctionDefinition)
    (fuel : Nat) (args : List ValueId)
    (hargs : ∀ v ∈ args, settled (dumpValue pack function fuel v)) :
    ∀ firstArg : Bool, settled (dumpArgListComma pack function fuel args firstArg) := by
  induction args with
  | nil => intro firstArg; simp [dumpArgListComma, settled]
  | cons a rest ih =>
      intro firstArg
      have ha := hargs a (by simp)
      have hr := ih (fun v hv => hargs v (by simp [hv])) false
      simp only [dumpArgListComma]
      split
      · rename_i e heq
        rw [heq] at ha
        exact ha
      · rename_i s heq
        split
        · rename_i e heq2
          rw [heq2] at hr
          exact hr
        · exact settled_ok _

/-- Helper: `dumpRValueFunctionCall` is settled when its arguments are. -/
lemma settled_dumpRValueFunctionCall (pack : PackFromGlsl) (function : FunctionDefinition)
    (fuel : Nat) (functionId : FunctionId) (args : List ValueId)
    (hargs : ∀ v ∈ args, settled (dumpValue pack function fuel v)) :
    settled (dumpRValueFunctionCall pack function fuel functionId args) := by
  have hn := settled_dumpFunctionName pack functionId
  have hl := settled_dumpArgListComma pack function fuel args hargs true
  simp only [dumpRValueFunctionCall]
  split
  · rename_i e heq
    rw [heq] at hn
    exact hn
  · rename_i nm heq
    split
    · rename_i e heq2
      rw [heq2] at hl
      exact hl
    · exact settled_ok _

/-- Helper: `dumpRValueOperator` is settled when its arguments are: every
arm either faults on an arity mismatch, emits, or propagates the settled
result of a sub-emission. -/
lemma settled_dumpRValueOperator (pack : PackFromGlsl) (function : FunctionDefinition)
    (fuel : Nat) (op : RValueOperator) (args : List ValueId)
    (hargs : ∀ v ∈ args, settled (dumpValue pack function fuel v)) :
    settled (dumpRValueOperator pack function fuel op args) := by
  cases op
  case Index =>
    rcases args with _ | ⟨a, _ | ⟨b, _ | ⟨c, t⟩⟩⟩
    · simp [dumpRValueOperator, settled]
    · simp [dumpRValueOperator, settled]
    · have ha := hargs a (by simp)
      have hb := hargs b (by simp)
      simp only [dumpRValueOperator]
      split
      · rename_i e heq
        rw [heq] at ha
        exact ha
      · rename_i la heq
        split
        · rename_i e heq2
          rw [heq2] at hb
          exact hb
        · exact settled_ok _
    · simp [dumpRValueOperator, settled]
  case Ternary =>
    rcases args with _ | ⟨a, _ | ⟨b, _ | ⟨c, _ | ⟨d, t⟩⟩⟩⟩
    · simp [dumpRValueOperator, settled]
    · simp [dumpRValueOperator, settled]
    · simp [dumpRValueOperator, settled]
    · have ha := hargs a (by simp)
      have hb := hargs b (by simp)
      have hc := hargs c (by simp)
      simp only [dumpRValueOperator]
      split
      · rename_i e heq
        rw [heq] at ha
        exact ha
      · rename_i la heq
        split
        · rename_i e heq2
          rw [heq2] at hb
          exact hb
        · rename_i lb heq2
          split
          · rename_i e heq3
            rw [heq3] at hc
            exact hc
          · exact settled_ok _
    · simp [dumpRValueOperator, settled]
  all_goals
    simp only [dumpRValueOperator]
  all_goals
    first
      | exact settled_dumpUnaryRValueOperator pack function fuel args _ _ hargs
      | exact settled_dumpBinaryRValueOperator pack function fuel _ args _ hargs
      | (have hl := settled_dumpArgListSpace pack function fuel args hargs
         split
         · rename_i e heq
           rw [heq] at hl
           exact hl
         · exact settled_ok _)

end Astrict

namespace Astrict

/-- Helper: under an acyclicity certificate, every emission routine of the
value/statement walk is settled once the fuel exceeds the rank of its
entry point.  Proved by induction on the fuel, mirroring the recursion
structure: fuel is consumed exactly at the two table indirections. -/
lemma settled_bundle (pack : PackFromGlsl) (function : FunctionDefinition)
    (A : AcyclicPack pack) :
    ∀ fuel : Nat,
      (∀ v, valRankOf A.rvRank v < fuel → settled (dumpValue pack function fuel v)) ∧
      (∀ r, A.rvRank r < fuel → settled (dumpRValue pack function fuel r)) ∧
      (∀ b d, A.blkRank b < fuel → settled (dumpBlock pack function fuel b d)) ∧
      (∀ statements d,
        (∀ st ∈ statements, stmtRankOf A.rvRank A.blkRank st < fuel) →
        settled (dumpStatements pack function fuel statements d)) ∧
      (∀ st d, stmtRankOf A.rvRank A.blkRank st < fuel →
        settled (dumpStatement pack function fuel st d)) := by
  intro fuel
  induction fuel with
  | zero =>
      refine ⟨?_, ?_, ?_, ?_, ?_⟩
      · intro v hv
        omega
      · intro r hr
        omega
      · intro b d hb
        omega
      · intro statements d hall
        cases statements with
        | nil => simp [dumpStatements, settled]
        | cons st rest => exact absurd (hall st (by simp)) (by omega)
      · intro st d hst
        omega
  | succ f ih =>
      obtain ⟨ihval, ihrv, ihblk, ihstmts, ihstmt⟩ := ih
      have hrv : ∀ r, A.rvRank r < f + 1 → settled (dumpRValue pack function (f + 1) r) := by
        intro r hr
        by_cases h0 : r.id = 0
        · simp [dumpRValue, h0, settled]
        · cases hfind : pack.rValues r with
          | none => simp [dumpRValue, h0, hfind, settled]
          | some rv =>
              cases rv with
              | literal => simp [dumpRValue, h0, hfind, settled]
              | evaluable evaluable =>
                  have hargs : ∀ v ∈ evaluable.args, settled (dumpValue pack function f v) := by
                    intro v hv
                    apply ihval
                    have hlt := A.rv_lt r _ hfind v (by simpa [rvalueArgsOf] using hv)
                    omega
                  cases hop : evaluable.op with
                  | inl op =>
                      simp only [dumpRValue, h0, hfind, hop, if_neg h0]
                      exact settled_dumpRValueOperator pack function f op evaluable.args hargs
                  | inr functionId =>
                      simp only [dumpRValue, h0, hfind, hop, if_neg h0]
                      exact settled_dumpRValueFunctionCall pack function f functionId
                        evaluable.args hargs
      have hval : ∀ v, valRankOf A.rvRank v < f + 1 →
          settled (dumpValue pack function (f + 1) v) := by
        intro v hv
        cases v with
        | rvalue r =>
            simp only [dumpValue]
            exact hrv r (by simpa [valRankOf] using hv)
        | globalSymbol g =>
            simp only [dumpValue]
            exact settled_dumpGlobalSymbol pack g
        | localSymbol l =>
            simp only [dumpValue]
            exact settled_dumpLocalSymbol pack function l false
      have hblk : ∀ b d, A.blkRank b < f + 1 →
          settled (dumpBlock pack function (f + 1) b d) := by
        intro b d hb
        cases hfind : pack.statementBlocks b with
        | none => simp [dumpBlock, hfind, settled]
        | some statements =>
            have h1 : ∀ st ∈ statements, stmtRankOf A.rvRank A.blkRank st < f := by
              intro st hst
              have := A.blk_lt b _ hfind st hst
              omega
            simp only [dumpBlock, hfind]
            exact ihstmts statements d h1
      have hstmt : ∀ st d, stmtRankOf A.rvRank A.blkRank st < f + 1 →
          settled (dumpStatement pack function (f + 1) st d) := by
        intro st d hst
        cases st with
        | rvalue r =>
            have hr : settled (dumpRValue pack function (f + 1) r) :=
              hrv r (by simpa [stmtRankOf] using hst)
            simp only [dumpStatement]
            split
            · rename_i e heq
              rw [heq] at hr
              exact hr
            · exact settled_ok _
        | ifStmt is =>
            cases he : is.elseBlock with
            | none =>
                simp only [stmtRankOf, he, max_lt_iff] at hst
                obtain ⟨h1, h2, -⟩ := hst
                have hc := hval _ h1
                have ht := hblk _ (d + 1) h2
                simp only [dumpStatement]
                split
                · rename_i e heq
                  rw [heq] at hc
                  exact hc
                · rename_i c heq
                  split
                  · rename_i e heq2
                    rw [heq2] at ht
                    exact ht
                  · rename_i tb heq2
                    simp only [he]
                    exact settled_ok _
            | some eb =>
                simp only [stmtRankOf, he, max_lt_iff] at hst
                obtain ⟨h1, h2, h3⟩ := hst
                have hc := hval _ h1
                have ht := hblk _ (d + 1) h2
                have hee := hblk eb (d + 1) h3
                simp only [dumpStatement]
                split
                · rename_i e heq
                  rw [heq] at hc
                  exact hc
                · rename_i c heq
                  split
                  · rename_i e heq2
                    rw [heq2] at ht
                    exact ht
                  · rename_i tb heq2
                    simp only [he]
                    split
                    · rename_i e heq3
                      rw [heq3] at hee
                      exact hee
                    · exact settled_ok _
        | switchStmt sw =>
            simp only [stmtRankOf, max_lt_iff] at hst
            obtain ⟨h1, h2⟩ := hst
            have hc := hval _ h1
            have hb := hblk _ (d + 1) h2
            simp only [dumpStatement]
            split
            · rename_i e heq
              rw [heq] at hc
              exact hc
            · rename_i c heq
              split
              · rename_i e heq2
                rw [heq2] at hb
                exact hb
              · exact settled_ok _
        | branch b =>
            cases ho : b.operand with
            | none =>
                simp only [dumpStatement, ho]
                exact settled_ok _
            | some v =>
                simp only [stmtRankOf, ho] at hst
                have hv := hval v hst
                simp only [dumpStatement, ho]
                split
                · rename_i e heq
                  rw [heq] at hv
                  exact hv
                · exact settled_ok _
        | loop lp =>
            cases hterm : lp.terminal with
            | some terminal =>
                simp only [stmtRankOf, hterm, max_lt_iff] at hst
                obtain ⟨h1, h2, h3⟩ := hst
                have hc := hval _ h1
                have hb := hblk _ (d + 1) h2
                have ht := hrv terminal h3
                cases htf : lp.testFirst with
                | true =>
                    simp only [dumpStatement, htf, hterm, if_true]
                    split
                    · rename_i e heq
                      rw [heq] at hc
                      exact hc
                    · rename_i c heq
                      split
                      · rename_i e heq2
                        rw [heq2] at ht
                        exact ht
                      · rename_i t heq2
                        split
                        · rename_i e heq3
                          rw [heq3] at hb
                          exact hb
                        · exact settled_ok _
                | false =>
                    simp only [dumpStatement, htf, Bool.false_eq_true, if_false]
                    split
                    · rename_i e heq
                      rw [heq] at hb
                      exact hb
                    · rename_i bt heq
                      split
                      · rename_i e heq2
                        rw [heq2] at hc
                        exact hc
                      · exact settled_ok _
            | none =>
                simp only [stmtRankOf, hterm, max_lt_iff] at hst
                obtain ⟨h1, h2, -⟩ := hst
                have hc := hval _ h1
                have hb := hblk _ (d + 1) h2
                cases htf : lp.testFirst with
                | true =>
                    simp only [dumpStatement, htf, hterm, if_true]
                    split
                    · rename_i e heq
                      rw [heq] at hc
                      exact hc
                    · rename_i c heq
                      split
                      · rename_i e heq2
                        rw [heq2] at hb
                        exact hb
                      · exact settled_ok _
                | false =>
                    simp only [dumpStatement, htf, Bool.false_eq_true, if_false]
                    split
                    · rename_i e heq
                      rw [heq] at hb
                      exact hb
                    · rename_i bt heq
                      split
                      · rename_i e heq2
                        rw [heq2] at hc
                        exact hc
                      · exact settled_ok _
      have hstmts : ∀ statements d,
          (∀ st ∈ statements, stmtRankOf A.rvRank A.blkRank st < f + 1) →
          settled (dumpStatements pack function (f + 1) statements d) := by
        intro statements d hall
        induction statements with
        | nil => simp [dumpStatements, settled]
        | cons st rest ihl =>
            have h1 := hstmt st d (hall st (by simp))
            have h2 := ihl (fun st2 hst2 => hall st2 (by simp [hst2]))
            simp only [dumpStatements]
            split
            · rename_i e heq
              rw [heq] at h1
              exact h1
            · rename_i s heq
              split
              · rename_i e heq2
                rw [heq2] at h2
                exact h2
              · exact settled_ok _
      exact ⟨hval, hrv, hblk, hstmts, hstmt⟩

end Astrict

namespace Astrict

/-- Helper: the parameter list dump never runs out of fuel. -/
lemma settled_dumpParamList (pack : PackFromGlsl) (function : FunctionDefinition) :
    ∀ (parameters : List Parameter) (firstParameter : Bool),
      settled (dumpParamList pack function parameters firstParameter) := by
  intro parameters
  induction parameters with
  | nil => intro firstParameter; simp [dumpParamList, settled]
  | cons p rest ih =>
      intro firstParameter
      have hp := settled_dumpLocalSymbol pack function p.name true
      have hr := ih false
      simp only [dumpParamList]
      split
      · rename_i e heq
        rw [heq] at hp
        exact hp
      · rename_i s heq
        split
        · rename_i e heq2
          rw [heq2] at hr
          exact hr
        · exact settled_ok _

/-- Helper: the local-declaration dump never runs out of fuel. -/
lemma settled_dumpLocalDecls (pack : PackFromGlsl) :
    ∀ (localSymbols : List (LocalSymbolId × LocalSymbol))
      (parameterSymbolIds : List LocalSymbolId),
      settled (dumpLocalDecls pack localSymbols parameterSymbolIds) := by
  intro localSymbols
  induction localSymbols with
  | nil => intro parameterSymbolIds; simp [dumpLocalDecls, settled]
  | cons entry rest ih =>
      intro parameterSymbolIds
      obtain ⟨localSymbolId, localSymbol⟩ := entry
      by_cases hc : parameterSymbolIds.contains localSymbolId
      · simp only [dumpLocalDecls, hc, if_true]
        exact ih parameterSymbolIds
      · have ht := settled_dumpType pack localSymbol.type
        have hr := ih parameterSymbolIds
        simp only [dumpLocalDecls, hc, Bool.false_eq_true, if_false]
        split
        · rename_i e heq
          rw [heq] at ht
          exact ht
        · rename_i t heq
          split
          · rename_i e heq2
            rw [heq2] at hr
            exact hr
          · exact settled_ok _

/-- Helper: `dumpFunction` is settled whenever the fuel exceeds the rank of
the body block of the definition it resolves to (vacuously when there is no
definition). -/
lemma settled_dumpFunction (pack : PackFromGlsl) (A : AcyclicPack pack)
    (fuel : Nat) (functionId : FunctionId) (dumpBody : Bool)
    (hbody : ∀ fdef, pack.functionDefinitions functionId = some fdef →
      A.blkRank fdef.body < fuel) :
    settled (dumpFunction pack fuel functionId dumpBody) := by
  cases hdef : pack.functionDefinitions functionId with
  | none => cases dumpBody <;> simp [dumpFunction, hdef, settled]
  | some function =>
      have ht := settled_dumpType pack function.returnType
      have hn := settled_dumpFunctionName pack function.name
      have hp := settled_dumpParamList pack function function.parameters true
      simp only [dumpFunction, hdef]
      split
      · rename_i e heq
        rw [heq] at ht
        exact ht
      · rename_i rt heq
        split
        · rename_i e heq2
          rw [heq2] at hn
          exact hn
        · rename_i nm heq2
          split
          · rename_i e heq3
            rw [heq3] at hp
            exact hp
          · rename_i ps heq3
            cases dumpBody with
            | false =>
                simp only [Bool.false_eq_true, if_false]
                exact settled_ok _
            | true =>
                have hd := settled_dumpLocalDecls pack function.localSymbols
                  (function.parameters.map (fun p => p.name))
                have hb := (settled_bundle pack function A fuel).2.2.1 function.body 1
                  (hbody function hdef)
                simp only [if_true]
                split
                · rename_i e heq4
                  rw [heq4] at hd
                  exact hd
                · rename_i decls heq4
                  split
                  · rename_i e heq5
                    rw [heq5] at hb
                    exact hb
                  · exact settled_ok _

/-- Helper: one pass over a list of function handles is settled when the
fuel exceeds the body rank of every resolvable handle in the list. -/
lemma settled_dumpFunctions (pack : PackFromGlsl) (A : AcyclicPack pack)
    (fuel : Nat) (dumpBody : Bool) :
    ∀ functionIds : List FunctionId,
      (∀ fid ∈ functionIds, ∀ fdef,
        pack.functionDefinitions fid = some fdef → A.blkRank fdef.body < fuel) →
      settled (dumpFunctions pack fuel functionIds dumpBody) := by
  intro functionIds
  induction functionIds with
  | nil => intro hall; simp [dumpFunctions, settled]
  | cons fid rest ih =>
      intro hall
      have h1 := settled_dumpFunction pack A fuel fid dumpBody
        (fun fdef hdef => hall fid (by simp) fdef hdef)
      have h2 := ih (fun fid2 hf2 fdef hdef => hall fid2 (by simp [hf2]) fdef hdef)
      simp only [dumpFunctions]
      split
      · rename_i e heq
        rw [heq] at h1
        exact h1
      · rename_i s heq
        split
        · rename_i e heq2
          rw [heq2] at h2
          exact h2
        · exact settled_ok _

/-- Claim C8: on a pack whose rvalue and statement-block reference graphs
are acyclic (witnessed by a rank certificate), whole-program emission is a
total function of the IR: with any fuel exceeding the body ranks of the
listed functions, `toGlsl` never exhausts its fuel, so it produces either
the complete output text or a structural consistency fault, and the fuel
bound is exactly the nesting-depth bound on the recursion. -/
theorem toGlsl_terminates_on_acyclic :
    ∀ (pack : PackFromGlsl) (A : AcyclicPack pack) (fuel : Nat),
      (∀ fid ∈ pack.functionPrototypes ++ pack.functionDefinitionOrder,
        ∀ fdef, pack.functionDefinitions fid = some fdef →
          A.blkRank fdef.body < fuel) →
      toGlsl pack fuel ≠ .error .noFuel := by
  intro pack A fuel hb
  have h1 := settled_dumpFunctions pack A fuel false pack.functionPrototypes
    (fun fid hf fdef hdef => hb fid (by simp [hf]) fdef hdef)
  have h2 := settled_dumpFunctions pack A fuel true pack.functionDefinitionOrder
    (fun fid hf fdef hdef => hb fid (by simp [hf]) fdef hdef)
  show settled (toGlsl pack fuel)
  simp only [toGlsl]
  split
  · rename_i e heq
    rw [heq] at h1
    exact h1
  · rename_i prototypes heq
    split
    · rename_i e heq2
      rw [heq2] at h2
      exact h2
    · exact settled_ok _

/-- Witness for claim C8 at a concrete input: `c6Pack` with its acyclicity
certificate and fuel 2 (its only block has rank 1) emits without running
out of fuel. -/
theorem toGlsl_terminates_on_acyclic_witness :
    toGlsl c6Pack 2 ≠ .error .noFuel := by
  apply toGlsl_terminates_on_acyclic c6Pack c6Acyclic 2
  intro fid hfid fdef hdef
  show (1 : Nat) < 2
  omega

end Astrict
